import Mathlib

/-!
A verification development for the Sprout compiler front end: a shallow
embedding of the tokenizer (`src/compiler/tokenizer.ts`), the recursive-descent
parser (`src/compiler/parser.ts`), the code generator
(`src/compiler/codegen.ts`) and the driver (`src/compiler/index.ts`), together
with theorems about lambda disambiguation, the `toggle` grammar, operator
lowering, parenthesization, `send` lowering, tokenizer totality and
diagnostics, the generator's capture mechanism, and the driver's fixed
prelude/epilogue.

Modelling conventions:
  * Source text is a `List Char`; the tokenizer's `index` cursor is represented
    by the remaining character list, while `line` and `column` are threaded
    exactly as the source mutates them (in particular the source does not
    advance `column` over plain whitespace, and the model reproduces that).
  * The tokenizer's `while` loop is embedded with an explicit recursion bound
    (`fuel`); `tokenize` runs the loop with bound `length + 1`, and the
    totality theorem shows this bound is never exhausted, which is the
    termination argument for the source's loop.
  * The parser's mutual recursion is embedded with a `fuel` bound as well; the
    source recursion is bounded only by the host call stack.  Statements about
    concrete programs instantiate the bound generously; contract-style
    statements quantify over the bound.
  * JavaScript exceptions are modelled with `Except`; `LexError` and
    `SynError` carry the line/column the source formats into its messages.
  * JavaScript `Number(...)` on the tokenizer's numeric literals (digit strings
    with an optional decimal point) is modelled exactly as a rational;
    `String(number)` is modelled on such decimal values.
  * `String.prototype.toUpperCase` is modelled on the ASCII alphabet, which
    covers every identifier the tokenizer can produce.
-/

namespace Sprout

/-! ## Tokenizer (`src/compiler/tokenizer.ts`) -/

inductive TokenType where
  | identifier
  | number
  | string
  | operator
  | punctuation
  | newline
  | eof
deriving DecidableEq, Repr

structure Token where
  type : TokenType
  value : String
  line : Nat
  column : Nat
deriving DecidableEq, Repr

/-- `punctuationChars` from the tokenizer. -/
def punctuationChars : List Char := ['(', ')', '{', '}', '[', ']', ',', '.', ':']

/-- `singleCharOperators` from the tokenizer. -/
def singleCharOperators : List Char := ['+', '-', '*', '/', '%', '!', '=', '<', '>', '?']

/-- `pairedOperators` from the tokenizer. -/
def pairedOperators : List String := ["==", "!=", ">=", "<=", "&&", "||"]

/-- `isWhitespace` from the tokenizer (space, tab, carriage return). -/
def isWhitespace (c : Char) : Bool := c = ' ' || c = '\t' || c = '\r'

/-- `isDigit` from the tokenizer. -/
def isDigit (c : Char) : Bool := '0' ≤ c && c ≤ '9'

/-- `isIdentifierStart` from the tokenizer: the class `[A-Za-z_#]`. -/
def isIdentifierStart (c : Char) : Bool :=
  ('A' ≤ c && c ≤ 'Z') || ('a' ≤ c && c ≤ 'z') || c = '_' || c = '#'

/-- `isIdentifierPart` from the tokenizer: the class `[A-Za-z0-9_#.-]`. -/
def isIdentifierPart (c : Char) : Bool :=
  isIdentifierStart c || isDigit c || c = '.' || c = '-'

def isPunctuationChar (c : Char) : Bool := punctuationChars.contains c

def isSingleCharOperator (c : Char) : Bool := singleCharOperators.contains c

/-- The two-character operator test `pairedOperators.has(char + next)`. -/
def isPairedOperator (c next : Char) : Bool := pairedOperators.contains (String.mk [c, next])

/-- The two failure sites of the tokenizer (`throw this.error(...)`), plus
the embedding's recursion-bound marker `outOfFuel`, which no run of
`tokenize` can produce (the totality theorem proves the bound `length + 1`
is never exhausted). -/
inductive LexErrorKind where
  | unterminatedString
  | unexpectedChar (c : Char)
  | outOfFuel
deriving DecidableEq, Repr

/-- A thrown lexer error: the message template plus the line/column the source
interpolates into it. -/
structure LexError where
  kind : LexErrorKind
  line : Nat
  column : Nat
deriving DecidableEq, Repr

/-- The message text of the two tokenizer throw sites. -/
def LexErrorKind.message : LexErrorKind → String
  | .unterminatedString => "Unterminated string literal"
  | .unexpectedChar c => "Unexpected character '" ++ String.singleton c ++ "'"
  | .outOfFuel => "recursion bound exhausted"

/-- `readString`'s scanning loop.  `quote`, `startLine`, `startColumn` are the
opening quote character and the tokenizer position at which it was seen;
`chars` is the text after the opening quote.  A backslash copies itself and the
following character verbatim (when the backslash is the last character, the
source steps past the end and the next loop iteration exits, so the
unterminated error is produced directly).  Note that, as in the source, `line`
is never advanced inside a string literal. -/
def readString (quote : Char) (startLine startColumn : Nat) :
    List Char → Nat → Nat → String → Except LexError (Token × List Char × Nat × Nat)
  | [], _, _, _ => .error ⟨.unterminatedString, startLine, startColumn⟩
  | c :: rest, line, column, value =>
    if c = '\\' then
      match rest with
      | [] => .error ⟨.unterminatedString, startLine, startColumn⟩
      | next :: rest2 =>
          readString quote startLine startColumn rest2 line (column + 2)
            ((value.push c).push next)
    else if c = quote then
      .ok (⟨.string, String.singleton quote ++ value ++ String.singleton quote,
            startLine, startColumn⟩, rest, line, column + 1)
    else
      readString quote startLine startColumn rest line (column + 1) (value.push c)

/-- The digit-consuming loops of `readNumber`. -/
def takeDigits : List Char → Nat → String → String × List Char × Nat
  | [], column, value => (value, [], column)
  | c :: rest, column, value =>
    if isDigit c then takeDigits rest (column + 1) (value.push c)
    else (value, c :: rest, column)

/-- `readNumber`: digits, then an optional `.` followed by more digits.  The
token is stamped with the position at which the first digit was seen; `line`
never changes. -/
def readNumber (chars : List Char) (line column : Nat) : Token × List Char × Nat :=
  let (value, rest, column2) := takeDigits chars column ""
  match rest with
  | '.' :: rest2 =>
      let (value2, rest3, column3) := takeDigits rest2 (column2 + 1) (value.push '.')
      (⟨.number, value2, line, column⟩, rest3, column3)
  | _ => (⟨.number, value, line, column⟩, rest, column2)

/-- The identifier-consuming loop of `readIdentifier`. -/
def takeIdentifier : List Char → Nat → String → String × List Char × Nat
  | [], column, value => (value, [], column)
  | c :: rest, column, value =>
    if isIdentifierPart c then takeIdentifier rest (column + 1) (value.push c)
    else (value, c :: rest, column)

/-- `readIdentifier`. -/
def readIdentifier (chars : List Char) (line column : Nat) : Token × List Char × Nat :=
  let (value, rest, column2) := takeIdentifier chars column ""
  (⟨.identifier, value, line, column⟩, rest, column2)

/-- The main `tokenize` loop, one recursive step per iteration of the source's
`while (!this.isEOF())` loop.  `fuel` bounds the number of iterations;
`tokenize` supplies `length + 1`, which the totality theorem shows is never
exhausted (each iteration consumes at least one character). -/
def tokenizeLoop (fuel : Nat) (chars : List Char) (line column : Nat) :
    Except LexError (List Token) :=
  match fuel with
  | 0 => .error ⟨.outOfFuel, 0, 0⟩
  | fuel + 1 =>
    match chars with
    | [] => .ok [⟨.eof, "", line, column⟩]
    | c :: rest =>
      if c = '\n' then
        match tokenizeLoop fuel rest (line + 1) 1 with
        | .error e => .error e
        | .ok ts => .ok (⟨.newline, "\n", line, column⟩ :: ts)
      else if isWhitespace c then
        tokenizeLoop fuel rest line column
      else if c = '"' || c = '\'' then
        match readString c line column rest line column "" with
        | .error e => .error e
        | .ok (token, rest2, line2, column2) =>
          match tokenizeLoop fuel rest2 line2 column2 with
          | .error e => .error e
          | .ok ts => .ok (token :: ts)
      else if isDigit c then
        let (token, rest2, column2) := readNumber (c :: rest) line column
        match tokenizeLoop fuel rest2 line column2 with
        | .error e => .error e
        | .ok ts => .ok (token :: ts)
      else if isIdentifierStart c then
        let (token, rest2, column2) := readIdentifier (c :: rest) line column
        match tokenizeLoop fuel rest2 line column2 with
        | .error e => .error e
        | .ok ts => .ok (token :: ts)
      else if c = '-' && rest.head? = some '>' then
        match tokenizeLoop fuel (rest.drop 1) line (column + 2) with
        | .error e => .error e
        | .ok ts => .ok (⟨.operator, "->", line, column⟩ :: ts)
      else if pairedOperators.contains (String.mk (c :: rest.take 1)) then
        match tokenizeLoop fuel (rest.drop 1) line (column + 2) with
        | .error e => .error e
        | .ok ts => .ok (⟨.operator, String.mk (c :: rest.take 1), line, column⟩ :: ts)
      else if isPunctuationChar c then
        match tokenizeLoop fuel rest line (column + 1) with
        | .error e => .error e
        | .ok ts => .ok (⟨.punctuation, String.singleton c, line, column⟩ :: ts)
      else if isSingleCharOperator c then
        match tokenizeLoop fuel rest line (column + 1) with
        | .error e => .error e
        | .ok ts => .ok (⟨.operator, String.singleton c, line, column⟩ :: ts)
      else
        .error ⟨.unexpectedChar c, line, column⟩

/-- `Tokenizer.tokenize`: run the scan from line 1, column 1. -/
def tokenize (source : String) : Except LexError (List Token) :=
  tokenizeLoop (source.data.length + 1) source.data 1 1

/-- The recognized character classes of the tokenizer, as a predicate on the
current character and one character of lookahead: newline, whitespace, quote,
digit, identifier start, the arrow `->`, a two-character operator, punctuation,
or a single-character operator. -/
def recognizedCharClass (c : Char) (next : Option Char) : Bool :=
  c = '\n' || isWhitespace c || c = '"' || c = '\'' || isDigit c || isIdentifierStart c ||
  (c = '-' && next = some '>') ||
  pairedOperators.contains (String.mk (c :: next.toList)) ||
  isPunctuationChar c || isSingleCharOperator c

/-! ## AST (`src/compiler/ast.ts`)

The tagged-union node types, as a closed sum.  `LiteralExpression`'s
`literalType`/`value` pair is represented by the `Lit` sum; `BlockStatement`
is represented by its statement list; the `BlockStatement | IfStatement`
alternate of an `IfStatement` is the `ElseClause` sum. -/

/-- A literal value: `literalType` of `'number' | 'text' | 'bool'` together
with the corresponding value. -/
inductive Lit where
  | num (value : ℚ)
  | text (value : String)
  | bool (value : Bool)
deriving DecidableEq, Repr

mutual
inductive Expression where
  | identifier (name : String)
  | literal (lit : Lit)
  | binary (operator : String) (left right : Expression)
  | logical (operator : String) (left right : Expression)
  | unary (operator : String) (argument : Expression)
  | call (callee : Expression) (arguments : List Expression)
  | member (object : Expression) (property : String)
  | listExpr (elements : List Expression)
  | mapExpr (entries : List MapEntry)
  | lambda (params : List String) (body : LambdaBody)
  | render (template : String) (value : Expression)
  | getExpr (target : Expression) (property : String) (extra : Option Expression)
  | group (expression : Expression)

inductive MapEntry where
  | mk (key : String) (value : Expression)

inductive LambdaBody where
  | block (body : List Statement)
  | expr (e : Expression)

inductive ThenClause where
  | mk (params : List String) (body : List Statement)

inductive ElseClause where
  | block (body : List Statement)
  | elseIf (test : Expression) (consequent : List Statement) (alternate : Option ElseClause)

inductive Statement where
  | letStmt (name : String) (value : Expression)
  | assignment (target value : Expression)
  | listen (selector : Expression) (event : String) (body : List Statement)
  | setStmt (target : Expression) (property : String) (value : Expression)
      (extra : Option Expression)
  | addStmt (target : Expression) (property : String) (value : Expression)
  | toggle (target : Expression) (mode : String) (argument : Option Expression)
  | send (url : Expression) (method : String) (payload : Expression) (chain : List ThenClause)
  | templateStmt (name : String) (template : String)
  | bindStmt (source : Expression) (selector : Expression) (property : String)
  | callJs (functionName : Expression) (payload : Option Expression)
  | ifStmt (test : Expression) (consequent : List Statement) (alternate : Option ElseClause)
  | forStmt (varName : String) (iterable : Expression) (body : List Statement)
  | exprStmt (expression : Expression)
end

/-- A `Program` node is its ordered statement list. -/
abbrev Program := List Statement

/-! ## Parser (`src/compiler/parser.ts`) -/

/-- A thrown parser error (`SyntaxError` in the specification): the message
and the offending token's line/column, as interpolated by `Parser.error`. -/
structure SynError where
  message : String
  line : Nat
  column : Nat
deriving DecidableEq, Repr

/-- Parser state: the token array (never mutated) and the cursor
`this.position`. -/
structure PState where
  tokens : List Token
  position : Nat
deriving DecidableEq, Repr

/-- The token `this.tokens[this.tokens.length - 1]` used for the
unexpected-end-of-input diagnostic (the list is never empty in practice, since
`tokenize` always appends an `eof` token). -/
def lastToken (s : PState) : Token :=
  (s.tokens.getLast?).getD ⟨.eof, "", 0, 0⟩

def unexpectedEndError (s : PState) : SynError :=
  ⟨"Unexpected end of input", (lastToken s).line, (lastToken s).column⟩

/-- `Parser.peek`: the current token, or the unexpected-end error. -/
def peek (s : PState) : Except SynError Token :=
  match s.tokens.get? s.position with
  | some t => .ok t
  | none => .error (unexpectedEndError s)

/-- `this.position += 1`. -/
def advance (s : PState) : PState := { s with position := s.position + 1 }

/-- `Parser.error(message)` with the default token argument `this.peek()`:
when the cursor is past the end, the `peek` inside the default argument itself
raises the unexpected-end error. -/
def perror (s : PState) (message : String) : SynError :=
  match s.tokens.get? s.position with
  | some t => ⟨message, t.line, t.column⟩
  | none => unexpectedEndError s

def consumeIdentifierToken (s : PState) : Except SynError (Token × PState) := do
  let token ← peek s
  if token.type = .identifier then pure (token, advance s)
  else throw ⟨"Expected identifier", token.line, token.column⟩

def consumeIdentifierValue (s : PState) : Except SynError (String × PState) := do
  let (token, s) ← consumeIdentifierToken s
  pure (token.value, s)

def consumeIdentifier (value : String) (s : PState) : Except SynError PState := do
  let (token, s) ← consumeIdentifierToken s
  if token.value = value then pure s
  else throw ⟨"Expected '" ++ value ++ "'", token.line, token.column⟩

def consumeOperator (value : String) (s : PState) : Except SynError PState := do
  let token ← peek s
  if token.type = .operator && token.value = value then pure (advance s)
  else throw ⟨"Expected operator '" ++ value ++ "'", token.line, token.column⟩

/-- The `${type}` interpolation of `consumeType`'s message. -/
def TokenType.name : TokenType → String
  | .identifier => "identifier"
  | .number => "number"
  | .string => "string"
  | .operator => "operator"
  | .punctuation => "punctuation"
  | .newline => "newline"
  | .eof => "eof"

def consumeType (type : TokenType) (s : PState) : Except SynError (Token × PState) := do
  let token ← peek s
  if token.type = type then pure (token, advance s)
  else throw ⟨"Expected " ++ type.name, token.line, token.column⟩

def consumePunctuation (value : String) (s : PState) : Except SynError PState := do
  let token ← peek s
  if token.type = .punctuation && token.value = value then pure (advance s)
  else throw ⟨"Expected '" ++ value ++ "'", token.line, token.column⟩

def consumeIfPunctuation (value : String) (s : PState) : Except SynError (Bool × PState) := do
  let token ← peek s
  if token.type = .punctuation && token.value = value then pure (true, advance s)
  else pure (false, s)

def peekIdentifier (value : String) (s : PState) : Except SynError Bool := do
  let token ← peek s
  pure (token.type = .identifier && token.value = value)

def peekOperator (value : String) (s : PState) : Except SynError Bool := do
  let token ← peek s
  pure (token.type = .operator && token.value = value)

def peekPunctuation (value : String) (s : PState) : Except SynError Bool := do
  let token ← peek s
  pure (token.type = .punctuation && token.value = value)

/-- The run of `newline` tokens at the cursor, or `none` when the scan runs
past the end of the token list (where the source's `peek` would throw). -/
def newlineRun : List Token → Option Nat
  | [] => none
  | t :: rest => if t.type = .newline then (newlineRun rest).map (· + 1) else some 0

/-- `Parser.skipNewlines`. -/
def skipNewlines (s : PState) : Except SynError PState :=
  match newlineRun (s.tokens.drop s.position) with
  | some k => .ok { s with position := s.position + k }
  | none => .error (unexpectedEndError s)

/-- `looksLikeAssignment`'s scan, iterating over the tokens from the cursor:
stop at a newline, at an unbalanced closing bracket, or at `eof`; report an
assignment on a depth-0 `=` operator. -/
def looksLikeAssignmentLoop (depth : Nat) : List Token → Bool
  | [] => false
  | token :: rest =>
    if token.type = .newline then false
    else if token.type = .punctuation &&
        (token.value = "(" || token.value = "[" || token.value = "\x7b") then
      looksLikeAssignmentLoop (depth + 1) rest
    else if token.type = .punctuation &&
        (token.value = ")" || token.value = "]" || token.value = "\x7d") then
      if depth = 0 then false else looksLikeAssignmentLoop (depth - 1) rest
    else if depth = 0 && token.type = .operator && token.value = "=" then true
    else if token.type = .eof then false
    else looksLikeAssignmentLoop depth rest

def looksLikeAssignment (s : PState) : Bool :=
  looksLikeAssignmentLoop 0 (s.tokens.drop s.position)

/-- `value.slice(1, -1)`: strip the first and last character (the retained
quotes of a string token). -/
def sliceQuotes (value : String) : String := (value.drop 1).dropRight 1

/-- `Number(value)` on the tokenizer's numeric literals (digit strings with at
most one decimal point), as an exact rational. -/
def digitsVal (chars : List Char) : Nat :=
  chars.foldl (fun acc c => acc * 10 + (c.toNat - '0'.toNat)) 0

/-- The split of a numeric literal at its (single, optional) decimal point. -/
def splitFrac : List Char → List Char × List Char
  | [] => ([], [])
  | c :: rest =>
    if c = '.' then ([], rest)
    else
      let (intPart, fracPart) := splitFrac rest
      (c :: intPart, fracPart)

def jsNumber (value : String) : ℚ :=
  let (intPart, fracPart) := splitFrac value.data
  if fracPart.isEmpty then (digitsVal intPart : ℚ)
  else (digitsVal intPart : ℚ) + (digitsVal fracPart : ℚ) / ((10 : ℚ) ^ fracPart.length)

mutual
/-- `extractParams`, together with the `elements.map` body of its
list-expression arm.  The state argument only supplies the position for the
thrown diagnostics (the source calls `this.error(...)` with the default
current token). -/
def extractParams (s : PState) : Expression → Except SynError (List String)
  | .identifier name => pure [name]
  | .call _ _ => throw (perror s "Unexpected call in lambda parameters")
  | .binary operator _ _ =>
      if operator = "," then throw (perror s "Comma operator is not supported")
      else throw (perror s "Unsupported lambda parameters")
  | .listExpr elements => extractParamsElements s elements
  | .mapExpr _ => throw (perror s "Lambda parameters must be identifiers")
  | .group inner => extractParams s inner
  | _ => throw (perror s "Unsupported lambda parameters")

def extractParamsElements (s : PState) : List Expression → Except SynError (List String)
  | [] => pure []
  | el :: rest =>
    match el with
    | .identifier name => do
        let others ← extractParamsElements s rest
        pure (name :: others)
    | _ => throw (perror s "Lambda parameters must be identifiers")
end

/-- Recursion-bound marker for the parser embedding: the source's recursive
descent is bounded only by the host call stack, which the `fuel` argument of
the mutual definitions below makes explicit.  Every loop of the source is one
recursive function here, and every call decrements the bound. -/
def fuelExhausted : SynError := ⟨"recursion limit exceeded", 0, 0⟩

mutual

/-- `Parser.parse`'s top-level loop. -/
def parseLoop (fuel : Nat) (s : PState) : Except SynError (List Statement × PState) :=
  match fuel with
  | 0 => throw fuelExhausted
  | fuel + 1 => do
    let t ← peek s
    if t.type = .eof then pure ([], s)
    else
      let s ← skipNewlines s
      let t2 ← peek s
      if t2.type = .eof then pure ([], s)
      else do
        let (st, s) ← parseStatement fuel s
        let s ← skipNewlines s
        let (rest, s) ← parseLoop fuel s
        pure (st :: rest, s)

/-- `Parser.parseStatement`: keyword dispatch, then the
assignment-vs-expression lookahead. -/
def parseStatement (fuel : Nat) (s : PState) : Except SynError (Statement × PState) :=
  match fuel with
  | 0 => throw fuelExhausted
  | fuel + 1 => do
    let token ← peek s
    if token.type = .identifier && token.value = "let" then parseLet fuel s
    else if token.type = .identifier && token.value = "listen" then parseListen fuel s
    else if token.type = .identifier && token.value = "set" then parseSet fuel s
    else if token.type = .identifier && token.value = "add" then parseAdd fuel s
    else if token.type = .identifier && token.value = "toggle" then parseToggle fuel s
    else if token.type = .identifier && token.value = "send" then parseSend fuel s
    else if token.type = .identifier && token.value = "template" then parseTemplate fuel s
    else if token.type = .identifier && token.value = "bind" then parseBind fuel s
    else if token.type = .identifier && token.value = "call" then parseCallJs fuel s
    else if token.type = .identifier && token.value = "if" then do
      let (d, s) ← parseIf fuel s
      pure (.ifStmt d.1 d.2.1 d.2.2, s)
    else if token.type = .identifier && token.value = "for" then parseFor fuel s
    else if looksLikeAssignment s then parseAssignment fuel s
    else do
      let (expression, s) ← parseExpression fuel s
      pure (.exprStmt expression, s)

def parseLet (fuel : Nat) (s : PState) : Except SynError (Statement × PState) :=
  match fuel with
  | 0 => throw fuelExhausted
  | fuel + 1 => do
    let s ← consumeIdentifier "let" s
    let (name, s) ← consumeIdentifierValue s
    let s ← consumeOperator "=" s
    let (value, s) ← parseExpression fuel s
    pure (.letStmt name value, s)

def parseAssignment (fuel : Nat) (s : PState) : Except SynError (Statement × PState) :=
  match fuel with
  | 0 => throw fuelExhausted
  | fuel + 1 => do
    let (target, s) ← parseExpression fuel s
    let s ← consumeOperator "=" s
    let (value, s) ← parseExpression fuel s
    pure (.assignment target value, s)

def parseListen (fuel : Nat) (s : PState) : Except SynError (Statement × PState) :=
  match fuel with
  | 0 => throw fuelExhausted
  | fuel + 1 => do
    let s ← consumeIdentifier "listen" s
    let (selector, s) ← parseExpression fuel s
    let (eventToken, s) ← consumeIdentifierToken s
    let (body, s) ← parseBlock fuel s
    pure (.listen selector eventToken.value body, s)

def parseSet (fuel : Nat) (s : PState) : Except SynError (Statement × PState) :=
  match fuel with
  | 0 => throw fuelExhausted
  | fuel + 1 => do
    let s ← consumeIdentifier "set" s
    let (target, s) ← parseExpression fuel s
    let (propertyToken, s) ← consumeIdentifierToken s
    let property := propertyToken.value
    let (extra, s) ←
      if property = "attr" || property = "css" || property = "data" then do
        let (e, s) ← parseExpression fuel s
        pure (some e, s)
      else pure (none, s)
    let s ← consumeIdentifier "to" s
    let (value, s) ← parseExpression fuel s
    pure (.setStmt target property value extra, s)

def parseAdd (fuel : Nat) (s : PState) : Except SynError (Statement × PState) :=
  match fuel with
  | 0 => throw fuelExhausted
  | fuel + 1 => do
    let s ← consumeIdentifier "add" s
    let (target, s) ← parseExpression fuel s
    let (propertyToken, s) ← consumeIdentifierToken s
    let s ← consumeIdentifier "with" s
    let (value, s) ← parseExpression fuel s
    pure (.addStmt target propertyToken.value value, s)

/-- `Parser.parseToggle`: `class` requires one argument expression; `show` and
`hide` take none; any other mode is a syntax error at the mode token. -/
def parseToggle (fuel : Nat) (s : PState) : Except SynError (Statement × PState) :=
  match fuel with
  | 0 => throw fuelExhausted
  | fuel + 1 => do
    let s ← consumeIdentifier "toggle" s
    let (target, s) ← parseExpression fuel s
    let (modeToken, s) ← consumeIdentifierToken s
    if modeToken.value = "class" then do
      let (argument, s) ← parseExpression fuel s
      pure (.toggle target "class" (some argument), s)
    else if modeToken.value = "show" || modeToken.value = "hide" then
      pure (.toggle target modeToken.value none, s)
    else
      throw ⟨"Unknown toggle mode '" ++ modeToken.value ++ "'", modeToken.line, modeToken.column⟩

def parseSend (fuel : Nat) (s : PState) : Except SynError (Statement × PState) :=
  match fuel with
  | 0 => throw fuelExhausted
  | fuel + 1 => do
    let s ← consumeIdentifier "send" s
    let (url, s) ← parseExpression fuel s
    let (methodToken, s) ← consumeIdentifierToken s
    let (payload, s) ← parseExpression fuel s
    let (chain, s) ← parseSendChainLoop fuel s
    pure (.send url methodToken.value payload chain, s)

/-- The `while (true)` continuation-clause loop of `parseSend`. -/
def parseSendChainLoop (fuel : Nat) (s : PState) :
    Except SynError (List ThenClause × PState) :=
  match fuel with
  | 0 => throw fuelExhausted
  | fuel + 1 => do
    let s ← skipNewlines s
    let isThen ← peekIdentifier "then" s
    if isThen then do
      let (clause, s) ← parseThenClause fuel s
      let (rest, s) ← parseSendChainLoop fuel s
      pure (clause :: rest, s)
    else pure ([], s)

def parseThenClause (fuel : Nat) (s : PState) : Except SynError (ThenClause × PState) :=
  match fuel with
  | 0 => throw fuelExhausted
  | fuel + 1 => do
    let s ← consumeIdentifier "then" s
    let (pb, s) ← parseLambdaBlock fuel s
    pure (ThenClause.mk pb.1 pb.2, s)

def parseLambdaBlock (fuel : Nat) (s : PState) :
    Except SynError ((List String × List Statement) × PState) :=
  match fuel with
  | 0 => throw fuelExhausted
  | fuel + 1 => do
    let s ← consumePunctuation "\x7b" s
    let s ← skipNewlines s
    let (params, s) ← parseLambdaParameters fuel s
    let s ← consumeOperator "->" s
    let (body, s) ← parseBlockBody fuel s
    let s ← consumePunctuation "\x7d" s
    pure ((params, body), s)

def parseLambdaParameters (fuel : Nat) (s : PState) :
    Except SynError (List String × PState) :=
  match fuel with
  | 0 => throw fuelExhausted
  | fuel + 1 => do
    let isArrow ← peekOperator "->" s
    if isArrow then pure ([], s)
    else do
      let isParen ← peekPunctuation "(" s
      if isParen then do
        let s ← consumePunctuation "(" s
        let isClose ← peekPunctuation ")" s
        let (params, s) ←
          if isClose then pure ([], s)
          else parseParamListLoop fuel s
        let s ← consumePunctuation ")" s
        pure (params, s)
      else do
        let (name, s) ← consumeIdentifierValue s
        pure ([name], s)

/-- The `do ... while (this.consumeIfPunctuation(','))` loop of
`parseLambdaParameters`. -/
def parseParamListLoop (fuel : Nat) (s : PState) :
    Except SynError (List String × PState) :=
  match fuel with
  | 0 => throw fuelExhausted
  | fuel + 1 => do
    let (name, s) ← consumeIdentifierValue s
    let (comma, s) ← consumeIfPunctuation "," s
    if comma then do
      let (rest, s) ← parseParamListLoop fuel s
      pure (name :: rest, s)
    else pure ([name], s)

def parseTemplate (fuel : Nat) (s : PState) : Except SynError (Statement × PState) :=
  match fuel with
  | 0 => throw fuelExhausted
  | _ + 1 => do
    let s ← consumeIdentifier "template" s
    let (name, s) ← consumeIdentifierValue s
    let s ← consumeOperator "=" s
    let (templateToken, s) ← consumeType .string s
    pure (.templateStmt name (sliceQuotes templateToken.value), s)

def parseBind (fuel : Nat) (s : PState) : Except SynError (Statement × PState) :=
  match fuel with
  | 0 => throw fuelExhausted
  | fuel + 1 => do
    let s ← consumeIdentifier "bind" s
    let (source, s) ← parseExpression fuel s
    let s ← consumeIdentifier "to" s
    let (selector, s) ← parseExpression fuel s
    let (propertyToken, s) ← consumeIdentifierToken s
    pure (.bindStmt source selector propertyToken.value, s)

def parseCallJs (fuel : Nat) (s : PState) : Except SynError (Statement × PState) :=
  match fuel with
  | 0 => throw fuelExhausted
  | fuel + 1 => do
    let s ← consumeIdentifier "call" s
    let s ← consumeIdentifier "js" s
    let (functionName, s) ← parseExpression fuel s
    let isWith ← peekIdentifier "with" s
    let (payload, s) ←
      if isWith then do
        let s ← consumeIdentifier "with" s
        let (p, s) ← parseExpression fuel s
        pure (some p, s)
      else pure (none, s)
    pure (.callJs functionName payload, s)

/-- `Parser.parseIf`, returning the `IfStatement` fields (it is reused for the
`else if` alternate). -/
def parseIf (fuel : Nat) (s : PState) :
    Except SynError ((Expression × List Statement × Option ElseClause) × PState) :=
  match fuel with
  | 0 => throw fuelExhausted
  | fuel + 1 => do
    let s ← consumeIdentifier "if" s
    let (test, s) ← parseExpression fuel s
    let (consequent, s) ← parseBlock fuel s
    let isElse ← peekIdentifier "else" s
    if isElse then do
      let s ← consumeIdentifier "else" s
      let isIf ← peekIdentifier "if" s
      if isIf then do
        let (d, s) ← parseIf fuel s
        pure ((test, consequent, some (.elseIf d.1 d.2.1 d.2.2)), s)
      else do
        let (blk, s) ← parseBlock fuel s
        pure ((test, consequent, some (.block blk)), s)
    else pure ((test, consequent, none), s)

def parseFor (fuel : Nat) (s : PState) : Except SynError (Statement × PState) :=
  match fuel with
  | 0 => throw fuelExhausted
  | fuel + 1 => do
    let s ← consumeIdentifier "for" s
    let (varName, s) ← consumeIdentifierValue s
    let s ← consumeIdentifier "in" s
    let (iterable, s) ← parseExpression fuel s
    let (body, s) ← parseBlock fuel s
    pure (.forStmt varName iterable body, s)

def parseBlock (fuel : Nat) (s : PState) : Except SynError (List Statement × PState) :=
  match fuel with
  | 0 => throw fuelExhausted
  | fuel + 1 => do
    let s ← consumePunctuation "\x7b" s
    let s ← skipNewlines s
    let (body, s) ← parseBlockLoop fuel s
    let s ← consumePunctuation "\x7d" s
    pure (body, s)

/-- The statement loop shared by `parseBlock` and `parseBlockBody`. -/
def parseBlockLoop (fuel : Nat) (s : PState) : Except SynError (List Statement × PState) :=
  match fuel with
  | 0 => throw fuelExhausted
  | fuel + 1 => do
    let isClose ← peekPunctuation "\x7d" s
    if isClose then pure ([], s)
    else do
      let (st, s) ← parseStatement fuel s
      let s ← skipNewlines s
      let (rest, s) ← parseBlockLoop fuel s
      pure (st :: rest, s)

/-- `parseBlockBody`: like `parseBlock` but without consuming the braces. -/
def parseBlockBody (fuel : Nat) (s : PState) : Except SynError (List Statement × PState) :=
  match fuel with
  | 0 => throw fuelExhausted
  | fuel + 1 => do
    let s ← skipNewlines s
    parseBlockLoop fuel s

def parseExpression (fuel : Nat) (s : PState) : Except SynError (Expression × PState) :=
  match fuel with
  | 0 => throw fuelExhausted
  | fuel + 1 => parseLambdaExpression fuel s

/-- `Parser.parseLambdaExpression`: lambda disambiguation after the logical
expression has been parsed — an arrow after an `Identifier` makes a
one-parameter lambda, an arrow after a `Group` extracts the parameter list
via `extractParams`, and any other shape is a syntax error. -/
def parseLambdaExpression (fuel : Nat) (s : PState) : Except SynError (Expression × PState) :=
  match fuel with
  | 0 => throw fuelExhausted
  | fuel + 1 => do
    let isArrow ← peekOperator "->" s
    if isArrow then do
      let s ← consumeOperator "->" s
      let (body, s) ← parseLambdaBody fuel s
      pure (.lambda [] body, s)
    else do
      let (expression, s) ← parseLogicalExpression fuel s
      let isArrow2 ← peekOperator "->" s
      if isArrow2 then
        match expression with
        | .identifier name => do
            let s ← consumeOperator "->" s
            let (body, s) ← parseLambdaBody fuel s
            pure (.lambda [name] body, s)
        | .group inner => do
            let params ← extractParams s (.group inner)
            let s ← consumeOperator "->" s
            let (body, s) ← parseLambdaBody fuel s
            pure (.lambda params body, s)
        | _ => throw (perror s "Invalid lambda parameters")
      else pure (expression, s)

def parseLambdaBody (fuel : Nat) (s : PState) : Except SynError (LambdaBody × PState) :=
  match fuel with
  | 0 => throw fuelExhausted
  | fuel + 1 => do
    let isBrace ← peekPunctuation "\x7b" s
    if isBrace then do
      let (blk, s) ← parseBlock fuel s
      pure (.block blk, s)
    else do
      let (e, s) ← parseExpression fuel s
      pure (.expr e, s)

def parseLogicalExpression (fuel : Nat) (s : PState) : Except SynError (Expression × PState) :=
  match fuel with
  | 0 => throw fuelExhausted
  | fuel + 1 => do
    let (left, s) ← parseEqualityExpression fuel s
    parseLogicalLoop fuel left s

def parseLogicalLoop (fuel : Nat) (left : Expression) (s : PState) :
    Except SynError (Expression × PState) :=
  match fuel with
  | 0 => throw fuelExhausted
  | fuel + 1 => do
    let isAnd ← peekOperator "&&" s
    let isOr ← peekOperator "||" s
    if isAnd || isOr then do
      let (operatorToken, s) ← consumeType .operator s
      let (right, s) ← parseEqualityExpression fuel s
      parseLogicalLoop fuel (.logical operatorToken.value left right) s
    else pure (left, s)

def parseEqualityExpression (fuel : Nat) (s : PState) : Except SynError (Expression × PState) :=
  match fuel with
  | 0 => throw fuelExhausted
  | fuel + 1 => do
    let (left, s) ← parseRelationalExpression fuel s
    parseEqualityLoop fuel left s

def parseEqualityLoop (fuel : Nat) (left : Expression) (s : PState) :
    Except SynError (Expression × PState) :=
  match fuel with
  | 0 => throw fuelExhausted
  | fuel + 1 => do
    let isEq ← peekOperator "==" s
    let isNe ← peekOperator "!=" s
    if isEq || isNe then do
      let (operatorToken, s) ← consumeType .operator s
      let (right, s) ← parseRelationalExpression fuel s
      parseEqualityLoop fuel (.binary operatorToken.value left right) s
    else pure (left, s)

def parseRelationalExpression (fuel : Nat) (s : PState) :
    Except SynError (Expression × PState) :=
  match fuel with
  | 0 => throw fuelExhausted
  | fuel + 1 => do
    let (left, s) ← parseAdditiveExpression fuel s
    parseRelationalLoop fuel left s

def parseRelationalLoop (fuel : Nat) (left : Expression) (s : PState) :
    Except SynError (Expression × PState) :=
  match fuel with
  | 0 => throw fuelExhausted
  | fuel + 1 => do
    let isGt ← peekOperator ">" s
    let isGe ← peekOperator ">=" s
    let isLt ← peekOperator "<" s
    let isLe ← peekOperator "<=" s
    if isGt || isGe || isLt || isLe then do
      let (operatorToken, s) ← consumeType .operator s
      let (right, s) ← parseAdditiveExpression fuel s
      parseRelationalLoop fuel (.binary operatorToken.value left right) s
    else pure (left, s)

def parseAdditiveExpression (fuel : Nat) (s : PState) :
    Except SynError (Expression × PState) :=
  match fuel with
  | 0 => throw fuelExhausted
  | fuel + 1 => do
    let (left, s) ← parseMultiplicativeExpression fuel s
    parseAdditiveLoop fuel left s

def parseAdditiveLoop (fuel : Nat) (left : Expression) (s : PState) :
    Except SynError (Expression × PState) :=
  match fuel with
  | 0 => throw fuelExhausted
  | fuel + 1 => do
    let isPlus ← peekOperator "+" s
    let isMinus ← peekOperator "-" s
    if isPlus || isMinus then do
      let (operatorToken, s) ← consumeType .operator s
      let (right, s) ← parseMultiplicativeExpression fuel s
      parseAdditiveLoop fuel (.binary operatorToken.value left right) s
    else pure (left, s)

def parseMultiplicativeExpression (fuel : Nat) (s : PState) :
    Except SynError (Expression × PState) :=
  match fuel with
  | 0 => throw fuelExhausted
  | fuel + 1 => do
    let (left, s) ← parseUnaryExpression fuel s
    parseMultiplicativeLoop fuel left s

def parseMultiplicativeLoop (fuel : Nat) (left : Expression) (s : PState) :
    Except SynError (Expression × PState) :=
  match fuel with
  | 0 => throw fuelExhausted
  | fuel + 1 => do
    let isMul ← peekOperator "*" s
    let isDiv ← peekOperator "/" s
    let isMod ← peekOperator "%" s
    if isMul || isDiv || isMod then do
      let (operatorToken, s) ← consumeType .operator s
      let (right, s) ← parseUnaryExpression fuel s
      parseMultiplicativeLoop fuel (.binary operatorToken.value left right) s
    else pure (left, s)

def parseUnaryExpression (fuel : Nat) (s : PState) : Except SynError (Expression × PState) :=
  match fuel with
  | 0 => throw fuelExhausted
  | fuel + 1 => do
    let isNot ← peekOperator "!" s
    let isNeg ← peekOperator "-" s
    if isNot || isNeg then do
      let (operatorToken, s) ← consumeType .operator s
      let (argument, s) ← parseUnaryExpression fuel s
      pure (.unary operatorToken.value argument, s)
    else parseCallMemberExpression fuel s

def parseCallMemberExpression (fuel : Nat) (s : PState) :
    Except SynError (Expression × PState) :=
  match fuel with
  | 0 => throw fuelExhausted
  | fuel + 1 => do
    let (expression, s) ← parsePrimaryExpression fuel s
    parseCallMemberLoop fuel expression s

/-- The postfix `.prop` / `(args...)` loop of `parseCallMemberExpression`. -/
def parseCallMemberLoop (fuel : Nat) (expression : Expression) (s : PState) :
    Except SynError (Expression × PState) :=
  match fuel with
  | 0 => throw fuelExhausted
  | fuel + 1 => do
    let isDot ← peekPunctuation "." s
    if isDot then do
      let s ← consumePunctuation "." s
      let (property, s) ← consumeIdentifierValue s
      parseCallMemberLoop fuel (.member expression property) s
    else do
      let isParen ← peekPunctuation "(" s
      if isParen then do
        let s ← consumePunctuation "(" s
        let isClose ← peekPunctuation ")" s
        let (args, s) ←
          if isClose then pure ([], s)
          else parseArgsLoop fuel s
        let s ← consumePunctuation ")" s
        parseCallMemberLoop fuel (.call expression args) s
      else pure (expression, s)

/-- The `do ... while (this.consumeIfPunctuation(','))` expression-list loop
(call arguments and list-literal elements). -/
def parseArgsLoop (fuel : Nat) (s : PState) : Except SynError (List Expression × PState) :=
  match fuel with
  | 0 => throw fuelExhausted
  | fuel + 1 => do
    let (arg, s) ← parseExpression fuel s
    let (comma, s) ← consumeIfPunctuation "," s
    if comma then do
      let (rest, s) ← parseArgsLoop fuel s
      pure (arg :: rest, s)
    else pure ([arg], s)

def parsePrimaryExpression (fuel : Nat) (s : PState) : Except SynError (Expression × PState) :=
  match fuel with
  | 0 => throw fuelExhausted
  | fuel + 1 => do
    let token ← peek s
    if token.type = .identifier then
      if token.value = "true" then pure (.literal (.bool true), advance s)
      else if token.value = "false" then pure (.literal (.bool false), advance s)
      else if token.value = "render" then parseRender fuel s
      else if token.value = "get" then parseGet fuel s
      else pure (.identifier token.value, advance s)
    else if token.type = .number then
      pure (.literal (.num (jsNumber token.value)), advance s)
    else if token.type = .string then
      pure (.literal (.text (sliceQuotes token.value)), advance s)
    else do
      let isParen ← peekPunctuation "(" s
      if isParen then do
        let s ← consumePunctuation "(" s
        let (expression, s) ← parseExpression fuel s
        let s ← consumePunctuation ")" s
        pure (.group expression, s)
      else do
        let isBracket ← peekPunctuation "[" s
        if isBracket then parseList fuel s
        else do
          let isBrace ← peekPunctuation "\x7b" s
          if isBrace then parseMap fuel s
          else throw ⟨"Unexpected token in expression", token.line, token.column⟩

def parseList (fuel : Nat) (s : PState) : Except SynError (Expression × PState) :=
  match fuel with
  | 0 => throw fuelExhausted
  | fuel + 1 => do
    let s ← consumePunctuation "[" s
    let isClose ← peekPunctuation "]" s
    let (elements, s) ←
      if isClose then pure ([], s)
      else parseArgsLoop fuel s
    let s ← consumePunctuation "]" s
    pure (.listExpr elements, s)

def parseMap (fuel : Nat) (s : PState) : Except SynError (Expression × PState) :=
  match fuel with
  | 0 => throw fuelExhausted
  | fuel + 1 => do
    let s ← consumePunctuation "\x7b" s
    let isClose ← peekPunctuation "\x7d" s
    let (entries, s) ←
      if isClose then pure ([], s)
      else parseMapEntriesLoop fuel s
    let s ← consumePunctuation "\x7d" s
    pure (.mapExpr entries, s)

def parseMapEntriesLoop (fuel : Nat) (s : PState) :
    Except SynError (List MapEntry × PState) :=
  match fuel with
  | 0 => throw fuelExhausted
  | fuel + 1 => do
    let keyToken ← peek s
    let (key, s) ←
      if keyToken.type = .identifier then pure (keyToken.value, advance s)
      else if keyToken.type = .string then pure (sliceQuotes keyToken.value, advance s)
      else throw ⟨"Expected map key", keyToken.line, keyToken.column⟩
    let s ← consumePunctuation ":" s
    let (value, s) ← parseExpression fuel s
    let (comma, s) ← consumeIfPunctuation "," s
    if comma then do
      let (rest, s) ← parseMapEntriesLoop fuel s
      pure (MapEntry.mk key value :: rest, s)
    else pure ([MapEntry.mk key value], s)

def parseRender (fuel : Nat) (s : PState) : Except SynError (Expression × PState) :=
  match fuel with
  | 0 => throw fuelExhausted
  | fuel + 1 => do
    let s ← consumeIdentifier "render" s
    let nameToken ← peek s
    let (name, s) ←
      if nameToken.type = .identifier then pure (nameToken.value, advance s)
      else if nameToken.type = .string then pure (sliceQuotes nameToken.value, advance s)
      else throw ⟨"Expected template name", nameToken.line, nameToken.column⟩
    let s ← consumeIdentifier "with" s
    let (value, s) ← parseExpression fuel s
    pure (.render name value, s)

def parseGet (fuel : Nat) (s : PState) : Except SynError (Expression × PState) :=
  match fuel with
  | 0 => throw fuelExhausted
  | fuel + 1 => do
    let s ← consumeIdentifier "get" s
    let (target, s) ← parseExpression fuel s
    let (propertyToken, s) ← consumeIdentifierToken s
    let property := propertyToken.value
    let (extra, s) ←
      if property = "attr" || property = "css" || property = "data" then do
        let (e, s) ← parseExpression fuel s
        pure (some e, s)
      else pure (none, s)
    pure (.getExpr target property extra, s)

end

/-- `Parser.parse` applied to a token list (the `Parser` constructor stores the
tokenized source at position 0). -/
def parse (fuel : Nat) (tokens : List Token) : Except SynError (Program × PState) :=
  parseLoop fuel ⟨tokens, 0⟩

/-- A compile failure: a tokenizer error or a parser error. -/
inductive CompileError where
  | lex (e : LexError)
  | syn (e : SynError)
deriving DecidableEq, Repr

/-- Tokenize-then-parse, as performed by the `Parser` constructor plus
`Parser.parse`. -/
def parseSource (fuel : Nat) (source : String) : Except CompileError Program :=
  match tokenize source with
  | .error e => .error (.lex e)
  | .ok tokens =>
    match parse fuel tokens with
    | .error e => .error (.syn e)
    | .ok (body, _) => .ok body

/-- Tokenize, then parse a single expression (`parseExpression` at position 0):
the expression-level view used by the lambda-disambiguation property. -/
def parseExpressionSource (fuel : Nat) (source : String) : Except CompileError Expression :=
  match tokenize source with
  | .error e => .error (.lex e)
  | .ok tokens =>
    match parseExpression fuel ⟨tokens, 0⟩ with
    | .error e => .error (.syn e)
    | .ok (expression, _) => .ok expression

/-! ## Code generator (`src/compiler/codegen.ts`) -/

/-- One hexadecimal digit (lowercase), for the `\u00XX` escapes of
`JSON.stringify`. -/
def hexDigit (n : Nat) : Char :=
  if n < 10 then Char.ofNat ('0'.toNat + n) else Char.ofNat ('a'.toNat + n - 10)

/-- `JSON.stringify` on one character of a string. -/
def jsonEscapeChar (c : Char) : String :=
  if c = '"' then "\\\""
  else if c = '\\' then "\\\\"
  else if c = '\x08' then "\\b"
  else if c = '\x0c' then "\\f"
  else if c = '\n' then "\\n"
  else if c = '\r' then "\\r"
  else if c = '\t' then "\\t"
  else if c.toNat < 32 then
    "\\u00" ++ String.mk [hexDigit (c.toNat / 16), hexDigit (c.toNat % 16)]
  else String.singleton c

/-- `JSON.stringify(value)` for a string value. -/
def jsonStringify (value : String) : String :=
  "\"" ++ String.join (value.data.map jsonEscapeChar) ++ "\""

/-- The `charMap` substitution of `escapeUnsafeChars`. -/
def escapeUnsafeChar (c : Char) : String :=
  if c = '<' then "\\u003C"
  else if c = '>' then "\\u003E"
  else if c = '/' then "\\u002F"
  else if c = '\\' then "\\\\"
  else if c = '\x08' then "\\b"
  else if c = '\x0c' then "\\f"
  else if c = '\n' then "\\n"
  else if c = '\r' then "\\r"
  else if c = '\t' then "\\t"
  else if c = '\x00' then "\\0"
  else if c = ' ' then "\\u2028"
  else if c = ' ' then "\\u2029"
  else String.singleton c

/-- `escapeUnsafeChars` from the code generator. -/
def escapeUnsafeChars (str : String) : String :=
  String.join (str.data.map escapeUnsafeChar)

/-- `method.toUpperCase()`, on the ASCII alphabet (the only identifier
characters the tokenizer admits). -/
def asciiUpper (value : String) : String := String.mk (value.data.map Char.toUpper)

/-- The fractional digits of `String(number)` for a terminating decimal in
`[0, 1)` (the bound 20 exceeds any decimal the tokenizer's literals produce). -/
def fracDigits (fuel : Nat) (q : ℚ) : String :=
  match fuel with
  | 0 => ""
  | fuel + 1 =>
    if q = 0 then ""
    else
      let q10 := q * 10
      let d := ⌊q10⌋
      toString d ++ fracDigits fuel (q10 - d)

/-- `String(value)` on a number arising from a Sprout numeric literal:
integers print without a decimal point, other terminating decimals print their
digits with no trailing zeros. -/
def jsNumberToString (q : ℚ) : String :=
  if q.den = 1 then toString q.num
  else
    let a := |q|
    let sign := if q < 0 then "-" else ""
    sign ++ toString ⌊a⌋ ++ "." ++ fracDigits 20 (a - ⌊a⌋)

/-- `String(value)` on a literal value (`generateLiteral`'s non-text branch
uses `String(...)`; text uses `JSON.stringify`). -/
def generateLiteral : Lit → String
  | .text v => jsonStringify v
  | .num q => jsNumberToString q
  | .bool b => if b then "true" else "false"

def isKeyStartChar (c : Char) : Bool :=
  ('A' ≤ c && c ≤ 'Z') || ('a' ≤ c && c ≤ 'z') || c = '_'

def isKeyChar (c : Char) : Bool := isKeyStartChar c || ('0' ≤ c && c ≤ '9')

/-- `formatObjectKey`: plain `[A-Za-z_][A-Za-z0-9_]*` keys are emitted bare,
others quoted. -/
def formatObjectKey (key : String) : String :=
  match key.data with
  | [] => jsonStringify key
  | c :: rest =>
    if isKeyStartChar c && rest.all isKeyChar then key else jsonStringify key

/-- `'  '.repeat(level)`. -/
def indentString (level : Nat) : String := String.join (List.replicate level "  ")

/-- `precedenceForOperator` from the code generator. -/
def precedenceForOperator (operator : String) : Nat :=
  if operator = "*" || operator = "/" || operator = "%" then 6
  else if operator = "+" || operator = "-" then 5
  else if operator = ">" || operator = ">=" || operator = "<" || operator = "<=" then 4
  else if operator = "==" || operator = "!=" then 3
  else 0

/-- Generator state: the output buffer (`this.output`, an ordered list of
pushed fragments joined at the end) and `this.indentLevel`. -/
structure GenState where
  output : List String
  indentLevel : Nat
deriving DecidableEq, Repr

/-- `emitLine`: push the indented line with a trailing newline. -/
def emitLine (line : String) (s : GenState) : GenState :=
  { s with output := s.output ++ [indentString s.indentLevel ++ line ++ "\n"] }

/-- `emitRaw`: push a fragment verbatim. -/
def emitRaw (text : String) (s : GenState) : GenState :=
  { s with output := s.output ++ [text] }

/-- `capture(indent, fn)`: render `fn` against a fresh empty buffer at the
given indent level, return the joined text, and leave the generator state as
it was (the source saves `output`/`indentLevel`, swaps in fresh ones, runs
`fn`, and restores the saved fields). -/
def capture (indent : Nat) (fn : GenState → GenState) (s : GenState) : String × GenState :=
  (String.join (fn { output := [], indentLevel := indent }).output, s)

/-- `emitCaptured(indent, fn)`: `emitRaw(capture(indent, fn))`. -/
def emitCaptured (indent : Nat) (fn : GenState → GenState) (s : GenState) : GenState :=
  emitRaw (capture indent fn s).1 s

/-! In the mutual definitions below, the captured text of a nested block
render — `capture`'s return value for `() => this.generateBlock(body)` at the
given indent — is written directly as
`String.join ((generateBlock body ⟨[], indent⟩).output)` so that the mutual
recursion is structural; the capture theorem proves this agrees with routing
the render through `capture`/`emitCaptured` as the source does. -/
mutual

/-- `generateStatement`: one `switch` arm per statement variant.  The
`generateListen`/`generateSet`/`generateAdd`/`generateToggle`/`generateSend`/
`generateBind`/`generateCallJs`/`generateIf`/`generateFor` helper methods are
inlined into their dispatch arms. -/
def generateStatement (statement : Statement) (s : GenState) : GenState :=
  match statement with
  | .letStmt name value =>
      emitLine ("let " ++ name ++ " = " ++ generateExpression value 0 s.indentLevel ++ ";") s
  | .assignment target value =>
      emitLine (generateExpression target 0 s.indentLevel ++ " = " ++
        generateExpression value 0 s.indentLevel ++ ";") s
  | .listen selector event body =>
      let sel := generateExpression selector 0 s.indentLevel
      let s1 := emitLine ("sprout.listen(" ++ sel ++ ", " ++ jsonStringify event ++
        ", (event) => \x7b") s
      let s2 := emitRaw
        (String.join ((generateBlock body ⟨[], s1.indentLevel + 1⟩).output)) s1
      emitLine "\x7d);" s2
  | .setStmt target property value extra =>
      let targetStr := generateExpression target 0 s.indentLevel
      let valueStr := generateExpression value 0 s.indentLevel
      let args := [targetStr, jsonStringify property, valueStr] ++
        (match extra with
         | some e => [generateExpression e 0 s.indentLevel]
         | none => [])
      emitLine ("sprout.set(" ++ String.intercalate ", " args ++ ");") s
  | .addStmt target property value =>
      emitLine ("sprout.add(" ++ generateExpression target 0 s.indentLevel ++ ", " ++
        jsonStringify property ++ ", " ++ generateExpression value 0 s.indentLevel ++ ");") s
  | .toggle target mode argument =>
      let targetStr := generateExpression target 0 s.indentLevel
      let argumentStr :=
        match argument with
        | some a => ", " ++ generateExpression a 0 s.indentLevel
        | none => ""
      emitLine ("sprout.toggle(" ++ targetStr ++ ", " ++ jsonStringify mode ++
        argumentStr ++ ");") s
  | .send url method payload chain =>
      let urlStr := generateExpression url 0 s.indentLevel
      let methodStr := jsonStringify (asciiUpper method)
      let payloadStr := generateExpression payload 0 s.indentLevel
      (match chain with
       | [] =>
          emitLine ("sprout.send(" ++ urlStr ++ ", " ++ methodStr ++ ", " ++
            payloadStr ++ ");") s
       | _ :: _ =>
          let baseIndent := s.indentLevel
          let chainIndent := baseIndent + 1
          let s1 := emitRaw (indentString baseIndent ++ "sprout.send(" ++ urlStr ++ ", " ++
            methodStr ++ ", " ++ payloadStr ++ ")") s
          let s2 := generateSendChain chain chainIndent s1
          let s3 := emitRaw ";\n" s2
          { s3 with indentLevel := baseIndent })
  | .templateStmt name template =>
      emitLine ("sprout.defineTemplate(" ++ jsonStringify name ++ ", " ++
        jsonStringify template ++ ");") s
  | .bindStmt source selector property =>
      emitLine ("sprout.bind(() => " ++ generateExpression source 0 s.indentLevel ++ ", " ++
        generateExpression selector 0 s.indentLevel ++ ", " ++
        escapeUnsafeChars (jsonStringify property) ++ ");") s
  | .callJs functionName payload =>
      let payloadStr :=
        match payload with
        | some p => ", " ++ generateExpression p 0 s.indentLevel
        | none => ""
      emitLine ("sprout.callJs(" ++ generateExpression functionName 0 s.indentLevel ++
        payloadStr ++ ");") s
  | .ifStmt test consequent alternate =>
      let s1 := emitLine ("if (" ++ generateExpression test 0 s.indentLevel ++ ") \x7b") s
      let s2 := emitRaw
        (String.join ((generateBlock consequent ⟨[], s1.indentLevel + 1⟩).output)) s1
      let s3 := emitLine "\x7d" s2
      generateElse alternate s3
  | .forStmt varName iterable body =>
      let s1 := emitLine ("for (const " ++ varName ++ " of sprout.iter(" ++
        generateExpression iterable 0 s.indentLevel ++ ")) \x7b") s
      let s2 := emitRaw
        (String.join ((generateBlock body ⟨[], s1.indentLevel + 1⟩).output)) s1
      emitLine "\x7d" s2
  | .exprStmt expression =>
      emitLine (generateExpression expression 0 s.indentLevel ++ ";") s

/-- The recursive `else` handling of `generateIf`: an `IfStatement` alternate
re-enters `generateIf` with the `else ` prefix, a block alternate becomes a
plain `else` block. -/
def generateElse (alternate : Option ElseClause) (s : GenState) : GenState :=
  match alternate with
  | none => s
  | some (.block body) =>
      let s1 := emitLine "else \x7b" s
      let s2 := emitRaw
        (String.join ((generateBlock body ⟨[], s1.indentLevel + 1⟩).output)) s1
      emitLine "\x7d" s2
  | some (.elseIf test consequent alternate2) =>
      let s1 := emitLine ("else if (" ++ generateExpression test 0 s.indentLevel ++
        ") \x7b") s
      let s2 := emitRaw
        (String.join ((generateBlock consequent ⟨[], s1.indentLevel + 1⟩).output)) s1
      let s3 := emitLine "\x7d" s2
      generateElse alternate2 s3

/-- The `forEach` over `statement.chain` in `generateSend`: each clause
appends a `.then((params) => { ... })` continuation; after the last clause the
source additionally pushes an empty fragment. -/
def generateSendChain (chain : List ThenClause) (chainIndent : Nat) (s : GenState) : GenState :=
  match chain with
  | [] => s
  | ThenClause.mk params body :: rest =>
      let paramsStr := String.intercalate ", " params
      let bodyStr := String.join ((generateBlock body ⟨[], chainIndent + 1⟩).output)
      let s1 := emitRaw ("\n" ++ indentString chainIndent ++ ".then((" ++ paramsStr ++
        ") => \x7b\n" ++ bodyStr ++ indentString chainIndent ++ "\x7d)") s
      let s2 := if rest.isEmpty then emitRaw "" s1 else s1
      generateSendChain rest chainIndent s2

/-- `generateBlock` (and the identical loop in `generate`). -/
def generateBlock (body : List Statement) (s : GenState) : GenState :=
  match body with
  | [] => s
  | st :: rest => generateBlock rest (generateStatement st s)

/-- `generateExpression(expression, parentPrecedence)`, with the current
`this.indentLevel` passed explicitly (it is read only by lambda block bodies).
The `generateBinary`/`generateLogical`/`generateUnary`/`generateLambda`/
`generateGet` helper methods are inlined into their dispatch arms. -/
def generateExpression (expression : Expression) (parentPrecedence indentLevel : Nat) : String :=
  match expression with
  | .literal lit => generateLiteral lit
  | .identifier name => name
  | .binary operator left right =>
      if operator = "+" then
        "sprout.ops.add(" ++ generateExpression left 0 indentLevel ++ ", " ++
          generateExpression right 0 indentLevel ++ ")"
      else if operator = "-" then
        "sprout.ops.subtract(" ++ generateExpression left 0 indentLevel ++ ", " ++
          generateExpression right 0 indentLevel ++ ")"
      else if operator = "==" then
        "sprout.ops.equals(" ++ generateExpression left 0 indentLevel ++ ", " ++
          generateExpression right 0 indentLevel ++ ")"
      else if operator = "!=" then
        "sprout.ops.notEquals(" ++ generateExpression left 0 indentLevel ++ ", " ++
          generateExpression right 0 indentLevel ++ ")"
      else
        let precedence := precedenceForOperator operator
        let leftStr := generateExpression left precedence indentLevel
        let rightStr := generateExpression right (precedence + 1) indentLevel
        let result := leftStr ++ " " ++ operator ++ " " ++ rightStr
        if precedence < parentPrecedence then "(" ++ result ++ ")" else result
  | .logical operator left right =>
      let precedence := if operator = "||" then 1 else 2
      let leftStr := generateExpression left precedence indentLevel
      let rightStr := generateExpression right (precedence + 1) indentLevel
      let result := leftStr ++ " " ++ operator ++ " " ++ rightStr
      if precedence < parentPrecedence then "(" ++ result ++ ")" else result
  | .unary operator argument =>
      if operator = "-" then
        "sprout.ops.negate(" ++ generateExpression argument 0 indentLevel ++ ")"
      else if operator = "!" then
        "!(" ++ generateExpression argument 0 indentLevel ++ ")"
      else operator ++ generateExpression argument 0 indentLevel
  | .call callee arguments =>
      generateExpression callee 100 indentLevel ++ "(" ++
        String.intercalate ", " (generateExpressionList arguments indentLevel) ++ ")"
  | .member object property =>
      generateExpression object 100 indentLevel ++ "." ++ property
  | .listExpr elements =>
      "[" ++ String.intercalate ", " (generateExpressionList elements indentLevel) ++ "]"
  | .mapExpr entries =>
      "\x7b" ++ String.intercalate ", " (generateMapEntryList entries indentLevel) ++ "\x7d"
  | .lambda params body =>
      let paramsStr := if params.length > 0 then String.intercalate ", " params else ""
      (match body with
       | .block blockBody =>
          let bodyStr := String.join ((generateBlock blockBody ⟨[], indentLevel + 1⟩).output)
          "(" ++ paramsStr ++ ") => \x7b\n" ++ bodyStr ++ indentString indentLevel ++ "\x7d"
       | .expr e => "(" ++ paramsStr ++ ") => " ++ generateExpression e 0 indentLevel)
  | .render template value =>
      "sprout.render(" ++ jsonStringify template ++ ", " ++
        generateExpression value 0 indentLevel ++ ")"
  | .getExpr target property extra =>
      let targetStr := generateExpression target 0 indentLevel
      let propertyStr := jsonStringify property
      (match extra with
       | some e =>
          "sprout.get(" ++ targetStr ++ ", " ++ propertyStr ++ ", " ++
            generateExpression e 0 indentLevel ++ ")"
       | none => "sprout.get(" ++ targetStr ++ ", " ++ propertyStr ++ ")")
  | .group expression =>
      "(" ++ generateExpression expression 0 indentLevel ++ ")"

/-- The `arguments.map(...)` / `elements.map(...)` renders. -/
def generateExpressionList (expressions : List Expression) (indentLevel : Nat) : List String :=
  match expressions with
  | [] => []
  | e :: rest => generateExpression e 0 indentLevel :: generateExpressionList rest indentLevel

/-- The `entries.map(...)` render of a map literal. -/
def generateMapEntryList (entries : List MapEntry) (indentLevel : Nat) : List String :=
  match entries with
  | [] => []
  | MapEntry.mk key value :: rest =>
      (formatObjectKey key ++ ": " ++ generateExpression value 0 indentLevel) ::
        generateMapEntryList rest indentLevel

end

/-- `CodeGenerator.generate`: render every top-level statement into a fresh
generator state and join the buffer. -/
def generate (program : Program) : String :=
  String.join ((generateBlock program ⟨[], 0⟩).output)

/-! ## Driver (`src/compiler/index.ts`) -/

/-- The fixed prelude: the `join('\n')` of the five `prelude` array entries
(the last entry is empty, so the text ends with a newline). -/
def preludeText : String :=
  String.intercalate "\n"
    ["Sprout.run((sprout) => \x7b",
     "  const state = sprout.state;",
     "  const std = sprout.std;",
     "  const \x7b time, random, list, json, url \x7d = std;",
     ""]

/-- The `text.split('\n')` decomposition, over character lists. -/
def splitLines : List Char → List (List Char)
  | [] => [[]]
  | c :: rest =>
    if c = '\n' then [] :: splitLines rest
    else
      match splitLines rest with
      | [] => [[c]]
      | l :: ls => (c :: l) :: ls

/-- `indentLines`: split on newlines, drop a trailing empty line, prefix each
non-empty line with two spaces per level, and close with a newline.  Empty
input stays empty. -/
def indentLines (text : String) (level : Nat) : String :=
  if text = "" then ""
  else
    let pfx := indentString level
    let lines := (splitLines text.data).map String.mk
    let lines :=
      match lines.getLast? with
      | some "" => lines.dropLast
      | _ => lines
    String.intercalate "\n" (lines.map (fun line => if line = "" then line else pfx ++ line)) ++
      "\n"

structure CompileResult where
  code : String
deriving DecidableEq, Repr

/-- `compileSprout`: parse, generate, and wrap the body in the fixed
prelude/epilogue. -/
def compileSprout (fuel : Nat) (source : String) : Except CompileError CompileResult :=
  match parseSource fuel source with
  | .error e => .error e
  | .ok program =>
    let body := generate program
    .ok ⟨preludeText ++ indentLines body 1 ++ "\x7d);\n"⟩

/-! ## Theorems

Helper lemmas for the tokenizer loop, then the claim theorems. -/

theorem readString_error (q : Char) (sl sc : Nat) :
    ∀ (chars : List Char) (l c : Nat) (v : String) (e : LexError),
      readString q sl sc chars l c v = .error e → e = ⟨.unterminatedString, sl, sc⟩ := by
  intro chars l c v e h
  induction chars, l, c, v using readString.induct q sl sc generalizing e with
  | case1 l c v => simp_all [readString]
  | case2 l c v => simp_all [readString]
  | case3 l c v ch next ih => simp_all [readString]
  | case4 rest l c v hq =>
      rw [readString.eq_def] at h
      simp [hq] at h
  | case5 c rest l col v hc hq ih =>
      rw [readString.eq_def] at h
      simp [hc, hq] at h
      exact ih e h

theorem readString_ok (q : Char) (sl sc : Nat) :
    ∀ (chars : List Char) (l c : Nat) (v : String) (t : Token) (rem : List Char) (l2 c2 : Nat),
      readString q sl sc chars l c v = .ok (t, rem, l2, c2) →
      t.type = .string ∧ rem.length ≤ chars.length := by
  intro chars l c v t rem l2 c2 h
  induction chars, l, c, v using readString.induct q sl sc generalizing t rem l2 c2 with
  | case1 l c v => simp_all [readString]
  | case2 l c v => simp_all [readString]
  | case3 l c v ch next ih =>
      rw [readString.eq_def] at h
      simp at h
      have := ih _ _ _ _ h
      exact ⟨this.1, by simpa using Nat.le_succ_of_le (Nat.le_succ_of_le this.2)⟩
  | case4 rest l c v hq =>
      rw [readString.eq_def] at h
      simp [hq] at h
      obtain ⟨ht, hrem, -⟩ := h
      subst ht
      simp [← hrem]
  | case5 c rest l col v hc hq ih =>
      rw [readString.eq_def] at h
      simp [hc, hq] at h
      have := ih _ _ _ _ h
      exact ⟨this.1, Nat.le_succ_of_le this.2⟩

theorem takeDigits_length :
    ∀ (chars : List Char) (col : Nat) (v : String),
      (takeDigits chars col v).2.1.length ≤ chars.length := by
  intro chars
  induction chars with
  | nil => intro col v; simp [takeDigits]
  | cons c rest ih =>
      intro col v
      rw [takeDigits.eq_def]
      by_cases hc : isDigit c = true
      · simp only [hc, if_true]
        exact Nat.le_succ_of_le (ih _ _)
      · simp [hc]

theorem takeIdentifier_length :
    ∀ (chars : List Char) (col : Nat) (v : String),
      (takeIdentifier chars col v).2.1.length ≤ chars.length := by
  intro chars
  induction chars with
  | nil => intro col v; simp [takeIdentifier]
  | cons c rest ih =>
      intro col v
      rw [takeIdentifier.eq_def]
      by_cases hc : isIdentifierPart c = true
      · simp only [hc, if_true]
        exact Nat.le_succ_of_le (ih _ _)
      · simp [hc]

theorem readNumber_length (c : Char) (rest : List Char) (line col : Nat)
    (hc : isDigit c = true) :
    (readNumber (c :: rest) line col).2.1.length ≤ rest.length := by
  rw [readNumber.eq_def]
  rcases h1 : takeDigits (c :: rest) col "" with ⟨v1, r1, c1⟩
  have hr1 : r1.length ≤ rest.length := by
    rw [takeDigits.eq_def] at h1
    simp only [hc, if_true] at h1
    have := takeDigits_length rest (col + 1) ("".push c)
    rw [h1] at this
    simpa using this
  simp only [h1]
  split
  · rename_i rest2
    simp only [List.length_cons] at hr1
    refine le_trans ?_ (le_trans (Nat.le_succ _) hr1)
    exact le_trans (le_of_eq rfl) (takeDigits_length rest2 (c1 + 1) (v1.push '.'))
  · simpa using hr1

theorem readIdentifier_length (c : Char) (rest : List Char) (line col : Nat)
    (hc : isIdentifierPart c = true) :
    (readIdentifier (c :: rest) line col).2.1.length ≤ rest.length := by
  rw [readIdentifier.eq_def]
  rcases h1 : takeIdentifier (c :: rest) col "" with ⟨v1, r1, c1⟩
  have hr1 : r1.length ≤ rest.length := by
    rw [takeIdentifier.eq_def] at h1
    simp only [hc, if_true] at h1
    have := takeIdentifier_length rest (col + 1) ("".push c)
    rw [h1] at this
    simpa using this
  simpa [h1] using hr1

theorem readNumber_type (chars : List Char) (line col : Nat) :
    (readNumber chars line col).1.type = .number := by
  rw [readNumber.eq_def]
  rcases h : takeDigits chars col "" with ⟨v, r, c2⟩
  simp only [h]
  split <;> rfl

theorem readIdentifier_type (chars : List Char) (line col : Nat) :
    (readIdentifier chars line col).1.type = .identifier := by
  rw [readIdentifier.eq_def]

theorem tokenizeLoop_shape :
    ∀ (fuel : Nat) (chars : List Char) (line column : Nat) (ts : List Token),
      tokenizeLoop fuel chars line column = .ok ts →
      ∃ pre l2 c2, ts = pre ++ [⟨.eof, "", l2, c2⟩] ∧ ∀ t ∈ pre, t.type ≠ .eof := by
  intro fuel
  induction fuel with
  | zero => intro chars l c ts h; simp [tokenizeLoop] at h
  | succ fuel ih =>
    intro chars l c ts h
    cases chars with
    | nil =>
        simp only [tokenizeLoop, Except.ok.injEq] at h
        exact ⟨[], l, c, by simp [← h], by simp⟩
    | cons c0 rest =>
        simp only [tokenizeLoop] at h
        split at h
        · rcases hrec : tokenizeLoop fuel rest (l + 1) 1 with e | ts2 <;> rw [hrec] at h <;>
            simp at h
          obtain ⟨pre, l2, c2, hpre, hall⟩ := ih _ _ _ _ hrec
          refine ⟨⟨.newline, "\n", l, c⟩ :: pre, l2, c2, by simp [← h, hpre], ?_⟩
          intro t ht
          rcases List.mem_cons.mp ht with rfl | ht
          · simp
          · exact hall t ht
        · split at h
          · exact ih _ _ _ _ h
          · split at h
            · rcases hrs : readString c0 l c rest l c "" with e | ⟨tok, rest2, l2x, c2x⟩ <;>
                simp only [hrs] at h
              · simp at h
              · rcases hrec : tokenizeLoop fuel rest2 l2x c2x with e | ts2 <;> rw [hrec] at h <;>
                  simp at h
                obtain ⟨pre, l2, c2, hpre, hall⟩ := ih _ _ _ _ hrec
                have htok := (readString_ok c0 l c rest l c "" tok rest2 l2x c2x hrs).1
                refine ⟨tok :: pre, l2, c2, by simp [← h, hpre], ?_⟩
                intro t ht
                rcases List.mem_cons.mp ht with rfl | ht
                · simp [htok]
                · exact hall t ht
            · split at h
              · rcases hrn : readNumber (c0 :: rest) l c with ⟨tok, rest2, col2⟩
                simp only [hrn] at h
                have htok : tok.type = .number := by
                  have := readNumber_type (c0 :: rest) l c
                  rw [hrn] at this
                  simpa using this
                rcases hrec : tokenizeLoop fuel rest2 l col2 with e | ts2 <;> rw [hrec] at h <;>
                  simp at h
                obtain ⟨pre, l2, c2, hpre, hall⟩ := ih _ _ _ _ hrec
                refine ⟨tok :: pre, l2, c2, by simp [← h, hpre], ?_⟩
                intro t ht
                rcases List.mem_cons.mp ht with rfl | ht
                · simp [htok]
                · exact hall t ht
              · split at h
                · rcases hrn : readIdentifier (c0 :: rest) l c with ⟨tok, rest2, col2⟩
                  simp only [hrn] at h
                  have htok : tok.type = .identifier := by
                    have := readIdentifier_type (c0 :: rest) l c
                    rw [hrn] at this
                    simpa using this
                  rcases hrec : tokenizeLoop fuel rest2 l col2 with e | ts2 <;> rw [hrec] at h <;>
                    simp at h
                  obtain ⟨pre, l2, c2, hpre, hall⟩ := ih _ _ _ _ hrec
                  refine ⟨tok :: pre, l2, c2, by simp [← h, hpre], ?_⟩
                  intro t ht
                  rcases List.mem_cons.mp ht with rfl | ht
                  · simp [htok]
                  · exact hall t ht
                · split at h
                  · rcases hrec : tokenizeLoop fuel (rest.drop 1) l (c + 2) with e | ts2 <;>
                      rw [hrec] at h <;> simp at h
                    obtain ⟨pre, l2, c2, hpre, hall⟩ := ih _ _ _ _ hrec
                    refine ⟨⟨.operator, "->", l, c⟩ :: pre, l2, c2, by simp [← h, hpre], ?_⟩
                    intro t ht
                    rcases List.mem_cons.mp ht with rfl | ht
                    · simp
                    · exact hall t ht
                  · split at h
                    · rcases hrec : tokenizeLoop fuel (rest.drop 1) l (c + 2) with e | ts2 <;>
                        rw [hrec] at h <;> simp at h
                      obtain ⟨pre, l2, c2, hpre, hall⟩ := ih _ _ _ _ hrec
                      refine ⟨⟨.operator, String.mk (c0 :: rest.take 1), l, c⟩ :: pre, l2, c2,
                        by simp [← h, hpre], ?_⟩
                      intro t ht
                      rcases List.mem_cons.mp ht with rfl | ht
                      · simp
                      · exact hall t ht
                    · split at h
                      · rcases hrec : tokenizeLoop fuel rest l (c + 1) with e | ts2 <;>
                          rw [hrec] at h <;> simp at h
                        obtain ⟨pre, l2, c2, hpre, hall⟩ := ih _ _ _ _ hrec
                        refine ⟨⟨.punctuation, String.singleton c0, l, c⟩ :: pre, l2, c2,
                          by simp [← h, hpre], ?_⟩
                        intro t ht
                        rcases List.mem_cons.mp ht with rfl | ht
                        · simp
                        · exact hall t ht
                      · split at h
                        · rcases hrec : tokenizeLoop fuel rest l (c + 1) with e | ts2 <;>
                            rw [hrec] at h <;> simp at h
                          obtain ⟨pre, l2, c2, hpre, hall⟩ := ih _ _ _ _ hrec
                          refine ⟨⟨.operator, String.singleton c0, l, c⟩ :: pre, l2, c2,
                            by simp [← h, hpre], ?_⟩
                          intro t ht
                          rcases List.mem_cons.mp ht with rfl | ht
                          · simp
                          · exact hall t ht
                        · simp at h

theorem recognizedCharClass_eq_false (c : Char) (next : Option Char)
    (h1 : ¬(c = '\n')) (h2 : ¬(isWhitespace c = true))
    (h3 : ¬((c = '"' || c = '\'') = true))
    (h4 : ¬(isDigit c = true)) (h5 : ¬(isIdentifierStart c = true))
    (h6 : ¬((c = '-' && next = some '>') = true))
    (h7 : ¬(pairedOperators.contains (String.mk (c :: next.toList)) = true))
    (h8 : ¬(isPunctuationChar c = true)) (h9 : ¬(isSingleCharOperator c = true)) :
    recognizedCharClass c next = false := by
  simp only [Bool.not_eq_true] at h2 h4 h5 h7 h8 h9
  simp only [Bool.or_eq_true, decide_eq_true_eq, not_or] at h3
  simp only [Bool.and_eq_true, decide_eq_true_eq] at h6
  simp [recognizedCharClass, h1, h2, h3.1, h3.2, h4, h5, h6, h8, h9]
  refine ⟨fun hc hn => h6 ⟨hc, hn⟩, ?_⟩
  simpa using h7

theorem tokenizeLoop_classify :
    ∀ (fuel : Nat) (chars : List Char) (line column : Nat), chars.length < fuel →
      (∃ ts, tokenizeLoop fuel chars line column = .ok ts) ∨
      (∃ l2 c2, tokenizeLoop fuel chars line column = .error ⟨.unterminatedString, l2, c2⟩) ∨
      (∃ c next l2 c2, tokenizeLoop fuel chars line column = .error ⟨.unexpectedChar c, l2, c2⟩ ∧
        recognizedCharClass c next = false) := by
  intro fuel
  induction fuel with
  | zero => intro chars l c hlen; exact absurd hlen (Nat.not_lt_zero _)
  | succ fuel ih =>
    intro chars l c hlen
    cases chars with
    | nil => exact Or.inl ⟨[⟨.eof, "", l, c⟩], by simp [tokenizeLoop]⟩
    | cons c0 rest =>
      have hrest : rest.length < fuel := by
        simp only [List.length_cons] at hlen
        omega
      generalize hres : tokenizeLoop (fuel + 1) (c0 :: rest) l c = res
      simp only [tokenizeLoop] at hres
      split at hres
      · rcases ih rest (l + 1) 1 hrest with ⟨ts, hts⟩ | ⟨l2, c2, he⟩ | ⟨cx, nx, l2, c2, he, hrc⟩
        · rw [hts] at hres
          exact Or.inl ⟨_, hres.symm⟩
        · rw [he] at hres
          exact Or.inr (Or.inl ⟨l2, c2, hres.symm⟩)
        · rw [he] at hres
          exact Or.inr (Or.inr ⟨cx, nx, l2, c2, hres.symm, hrc⟩)
      · split at hres
        · rcases ih rest l c hrest with ⟨ts, hts⟩ | ⟨l2, c2, he⟩ | ⟨cx, nx, l2, c2, he, hrc⟩
          · rw [hts] at hres
            exact Or.inl ⟨_, hres.symm⟩
          · rw [he] at hres
            exact Or.inr (Or.inl ⟨l2, c2, hres.symm⟩)
          · rw [he] at hres
            exact Or.inr (Or.inr ⟨cx, nx, l2, c2, hres.symm, hrc⟩)
        · split at hres
          · rcases hrs : readString c0 l c rest l c "" with e | ⟨tok, rest2, l2x, c2x⟩ <;>
              simp only [hrs] at hres
            · have he := readString_error c0 l c rest l c "" e hrs
              subst he
              exact Or.inr (Or.inl ⟨l, c, hres.symm⟩)
            · have hlen2 : rest2.length < fuel :=
                lt_of_le_of_lt (readString_ok c0 l c rest l c "" tok rest2 l2x c2x hrs).2 hrest
              rcases ih rest2 l2x c2x hlen2 with ⟨ts, hts⟩ | ⟨l2, c2, he⟩ |
                ⟨cx, nx, l2, c2, he, hrc⟩
              · rw [hts] at hres
                exact Or.inl ⟨_, hres.symm⟩
              · rw [he] at hres
                exact Or.inr (Or.inl ⟨l2, c2, hres.symm⟩)
              · rw [he] at hres
                exact Or.inr (Or.inr ⟨cx, nx, l2, c2, hres.symm, hrc⟩)
          · split at hres
            · rename_i hdig
              rcases hrn : readNumber (c0 :: rest) l c with ⟨tok, rest2, col2⟩
              simp only [hrn] at hres
              have hlen2 : rest2.length < fuel := by
                have := readNumber_length c0 rest l c hdig
                rw [hrn] at this
                simp only at this
                omega
              rcases ih rest2 l col2 hlen2 with ⟨ts, hts⟩ | ⟨l2, c2, he⟩ |
                ⟨cx, nx, l2, c2, he, hrc⟩
              · rw [hts] at hres
                exact Or.inl ⟨_, hres.symm⟩
              · rw [he] at hres
                exact Or.inr (Or.inl ⟨l2, c2, hres.symm⟩)
              · rw [he] at hres
                exact Or.inr (Or.inr ⟨cx, nx, l2, c2, hres.symm, hrc⟩)
            · split at hres
              · rename_i hident
                rcases hrn : readIdentifier (c0 :: rest) l c with ⟨tok, rest2, col2⟩
                simp only [hrn] at hres
                have hlen2 : rest2.length < fuel := by
                  have := readIdentifier_length c0 rest l c (by simp [isIdentifierPart, hident])
                  rw [hrn] at this
                  simp only at this
                  omega
                rcases ih rest2 l col2 hlen2 with ⟨ts, hts⟩ | ⟨l2, c2, he⟩ |
                  ⟨cx, nx, l2, c2, he, hrc⟩
                · rw [hts] at hres
                  exact Or.inl ⟨_, hres.symm⟩
                · rw [he] at hres
                  exact Or.inr (Or.inl ⟨l2, c2, hres.symm⟩)
                · rw [he] at hres
                  exact Or.inr (Or.inr ⟨cx, nx, l2, c2, hres.symm, hrc⟩)
              · split at hres
                · have hdrop : (rest.drop 1).length < fuel := by
                    have := List.length_drop 1 rest
                    omega
                  rcases ih (rest.drop 1) l (c + 2) hdrop with ⟨ts, hts⟩ | ⟨l2, c2, he⟩ |
                    ⟨cx, nx, l2, c2, he, hrc⟩
                  · rw [hts] at hres
                    exact Or.inl ⟨_, hres.symm⟩
                  · rw [he] at hres
                    exact Or.inr (Or.inl ⟨l2, c2, hres.symm⟩)
                  · rw [he] at hres
                    exact Or.inr (Or.inr ⟨cx, nx, l2, c2, hres.symm, hrc⟩)
                · split at hres
                  · have hdrop : (rest.drop 1).length < fuel := by
                      have := List.length_drop 1 rest
                      omega
                    rcases ih (rest.drop 1) l (c + 2) hdrop with ⟨ts, hts⟩ | ⟨l2, c2, he⟩ |
                      ⟨cx, nx, l2, c2, he, hrc⟩
                    · rw [hts] at hres
                      exact Or.inl ⟨_, hres.symm⟩
                    · rw [he] at hres
                      exact Or.inr (Or.inl ⟨l2, c2, hres.symm⟩)
                    · rw [he] at hres
                      exact Or.inr (Or.inr ⟨cx, nx, l2, c2, hres.symm, hrc⟩)
                  · split at hres
                    · rcases ih rest l (c + 1) hrest with ⟨ts, hts⟩ | ⟨l2, c2, he⟩ |
                        ⟨cx, nx, l2, c2, he, hrc⟩
                      · rw [hts] at hres
                        exact Or.inl ⟨_, hres.symm⟩
                      · rw [he] at hres
                        exact Or.inr (Or.inl ⟨l2, c2, hres.symm⟩)
                      · rw [he] at hres
                        exact Or.inr (Or.inr ⟨cx, nx, l2, c2, hres.symm, hrc⟩)
                    · split at hres
                      · rcases ih rest l (c + 1) hrest with ⟨ts, hts⟩ | ⟨l2, c2, he⟩ |
                          ⟨cx, nx, l2, c2, he, hrc⟩
                        · rw [hts] at hres
                          exact Or.inl ⟨_, hres.symm⟩
                        · rw [he] at hres
                          exact Or.inr (Or.inl ⟨l2, c2, hres.symm⟩)
                        · rw [he] at hres
                          exact Or.inr (Or.inr ⟨cx, nx, l2, c2, hres.symm, hrc⟩)
                      · rename_i h1 h2 h3 h4 h5 h6 h7 h8 h9
                        rw [List.take_one] at h7
                        exact Or.inr (Or.inr ⟨c0, rest.head?, l, c, hres.symm,
                          recognizedCharClass_eq_false c0 rest.head? h1 h2 h3 h4 h5 h6 h7 h8 h9⟩)


/-- C6: for every input string, `tokenize` terminates (it is a total function,
and the recursion bound `length + 1` it passes to its loop is never exhausted,
as the classification below shows), and it either returns a token sequence or
fails with a `LexError`, failing only in exactly two cases: an unterminated
string literal, or a character that matches none of the recognized character
classes (whitespace, newline, quote, digit, identifier start, the arrow `->`,
a two-character operator, punctuation, or a single-character operator), the
lookahead-dependent classes being judged with one character of lookahead as
the source does. -/
theorem tokenize_total_and_error_classes :
    ∀ source : String,
      (∃ ts, tokenize source = .ok ts) ∨
      (∃ e, tokenize source = .error e ∧
        (e.kind = .unterminatedString ∨
         ∃ c next, e.kind = .unexpectedChar c ∧ recognizedCharClass c next = false)) := by
  intro source
  rcases tokenizeLoop_classify (source.data.length + 1) source.data 1 1 (Nat.lt_succ_self _) with
    ⟨ts, hts⟩ | ⟨l2, c2, he⟩ | ⟨c, next, l2, c2, he, hrc⟩
  · exact Or.inl ⟨ts, hts⟩
  · exact Or.inr ⟨⟨.unterminatedString, l2, c2⟩, he, Or.inl rfl⟩
  · exact Or.inr ⟨⟨.unexpectedChar c, l2, c2⟩, he, Or.inr ⟨c, next, rfl, hrc⟩⟩

/-- C7: an unterminated string literal is reported at the position of its
opening quote, not at the end of input: `readString` only ever fails with the
`startLine`/`startColumn` it was given; the tokenize loop, upon seeing a quote
character at its current `(line, column)`, starts the string scan at exactly
that position, so the resulting `LexError` carries the opening quote's
position; and on the specification's scenario `template t = "abc` the error is
positioned at the tokenizer's recorded position of the opening quote (line 1,
column 11 in its column accounting, which does not advance over blanks). -/
theorem unterminated_string_error_at_opening_quote :
    (∀ (q : Char) (sl sc : Nat) (chars : List Char) (l c : Nat) (v : String) (e : LexError),
        readString q sl sc chars l c v = .error e → e = ⟨.unterminatedString, sl, sc⟩) ∧
    (∀ (fuel : Nat) (q : Char) (rest : List Char) (l c : Nat) (e : LexError),
        q = '"' ∨ q = '\'' →
        readString q l c rest l c "" = .error e →
        tokenizeLoop (fuel + 1) (q :: rest) l c = .error ⟨.unterminatedString, l, c⟩) ∧
    tokenize "template t = \"abc" = .error ⟨.unterminatedString, 1, 11⟩ := by
  refine ⟨fun q sl sc chars l c v e h => readString_error q sl sc chars l c v e h, ?_, by rfl⟩
  intro fuel q rest l c e hq h
  obtain rfl := readString_error q l c rest l c "" e h
  rcases hq with rfl | rfl
  · have hstep : tokenizeLoop (fuel + 1) ('"' :: rest) l c =
        (match readString '"' l c rest l c "" with
         | .error e => .error e
         | .ok (token, rest2, line2, column2) =>
           match tokenizeLoop fuel rest2 line2 column2 with
           | .error e => .error e
           | .ok ts => .ok (token :: ts)) := rfl
    rw [hstep, h]
  · have hstep : tokenizeLoop (fuel + 1) ('\'' :: rest) l c =
        (match readString '\'' l c rest l c "" with
         | .error e => .error e
         | .ok (token, rest2, line2, column2) =>
           match tokenizeLoop fuel rest2 line2 column2 with
           | .error e => .error e
           | .ok ts => .ok (token :: ts)) := rfl
    rw [hstep, h]

/-- C7 witness: the general statements applied at concrete inputs — scanning
`"ab` (the text after an opening quote at line 1, column 5, with no closing
quote) fails at (1, 5), and the loop instance propagates it. -/
theorem unterminated_string_error_at_opening_quote_witness :
    tokenizeLoop 4 ('"' :: ['a', 'b']) 1 5 = .error ⟨.unterminatedString, 1, 5⟩ ∧
    (⟨.unterminatedString, 1, 5⟩ : LexError) = ⟨.unterminatedString, 1, 5⟩ :=
  ⟨unterminated_string_error_at_opening_quote.2.1 3 '"' ['a', 'b'] 1 5
      ⟨.unterminatedString, 1, 5⟩ (Or.inl rfl) rfl,
    unterminated_string_error_at_opening_quote.1 '"' 1 5 ['a', 'b'] 1 5 ""
      ⟨.unterminatedString, 1, 5⟩ rfl⟩

/-- C9: whenever `tokenize` succeeds, the returned sequence is non-empty, its
last token is the `eof` token with empty value, no earlier token has type
`eof`, and tokenizing the empty string returns exactly the one `eof` token. -/
theorem tokenize_eof_terminated :
    (∀ (source : String) (ts : List Token),
        tokenize source = .ok ts →
        ts ≠ [] ∧ ∃ pre l2 c2, ts = pre ++ [⟨.eof, "", l2, c2⟩] ∧ ∀ t ∈ pre, t.type ≠ .eof) ∧
    tokenize "" = .ok [⟨.eof, "", 1, 1⟩] := by
  refine ⟨fun source ts h => ?_, by rfl⟩
  obtain ⟨pre, l2, c2, hpre, hall⟩ := tokenizeLoop_shape _ _ _ _ _ h
  subst hpre
  exact ⟨by simp, pre, l2, c2, rfl, hall⟩

/-- C9 witness: the shape theorem applied to the concrete source `x`. -/
theorem tokenize_eof_terminated_witness :
    ([⟨.identifier, "x", 1, 1⟩, ⟨.eof, "", 1, 2⟩] : List Token) ≠ [] ∧
    ∃ pre l2 c2,
      ([⟨.identifier, "x", 1, 1⟩, ⟨.eof, "", 1, 2⟩] : List Token) =
        pre ++ [⟨.eof, "", l2, c2⟩] ∧ ∀ t ∈ pre, t.type ≠ .eof :=
  tokenize_eof_terminated.1 "x" [⟨.identifier, "x", 1, 1⟩, ⟨.eof, "", 1, 2⟩] rfl


/-- C1 counterexample: at the expression level, `(x, y) -> x + y` does not
parse to a two-parameter lambda — the group production of
`parsePrimaryExpression` parses a single expression and then requires `)`, so
parsing fails at the comma (line 1, column 3 in the tokenizer's column
accounting) with the syntax error `Expected ')'`. -/
theorem two_param_group_lambda_counterexample :
    parseExpressionSource 64 "(x, y) -> x + y" = .error (.syn ⟨"Expected ')'", 1, 3⟩) ∧
    (parseExpressionSource 64 "(x, y) -> x + y").isOk = false :=
  ⟨rfl, rfl⟩

/-- C1 (amended): lambda disambiguation at the expression level — `x -> x + 1`
parses to a lambda with the single parameter list `["x"]`; `(x, y) -> x + y`
fails with a `SyntaxError` at the comma (grouped parameter lists with commas
are not expressible, since a group holds exactly one expression and
`extractParams` explicitly rejects comma operators); a two-element parameter
list is written with a list literal, `([x, y]) -> x + y`, which parses to a
lambda with parameter list `["x", "y"]`; and `(x + y) -> x` fails with a
`SyntaxError` (invalid lambda parameter shape, from `extractParams`). -/
theorem lambda_disambiguation_amended :
    parseExpressionSource 64 "x -> x + 1" =
      .ok (.lambda ["x"] (.expr (.binary "+" (.identifier "x") (.literal (.num 1))))) ∧
    parseExpressionSource 64 "(x, y) -> x + y" = .error (.syn ⟨"Expected ')'", 1, 3⟩) ∧
    parseExpressionSource 64 "([x, y]) -> x + y" =
      .ok (.lambda ["x", "y"] (.expr (.binary "+" (.identifier "x") (.identifier "y")))) ∧
    parseExpressionSource 64 "(x + y) -> x" =
      .error (.syn ⟨"Unsupported lambda parameters", 1, 6⟩) :=
  ⟨rfl, rfl, rfl, rfl⟩

/-- C2: the `toggle` statement grammar.  Whenever `parseToggle` has consumed
the `toggle` keyword, a target expression, and a mode identifier token, then:
mode `class` consumes exactly one further argument expression and yields a
`ToggleStatement` with mode `class` and that argument; modes `show` and `hide`
consume nothing further and yield a `ToggleStatement` with no argument; and
any other mode identifier fails with a `SyntaxError` carrying that mode
token's line and column.  The two concrete scenarios of the specification are
included. -/
theorem toggle_grammar :
    (∀ (fuel : Nat) (s s0 : PState) (target : Expression) (s1 : PState) (tk : Token)
        (s2 : PState),
        consumeIdentifier "toggle" s = .ok s0 →
        parseExpression fuel s0 = .ok (target, s1) →
        consumeIdentifierToken s1 = .ok (tk, s2) →
        (tk.value = "class" →
          parseToggle (fuel + 1) s =
            (parseExpression fuel s2).map (fun r => (.toggle target "class" (some r.1), r.2))) ∧
        (tk.value = "show" ∨ tk.value = "hide" →
          parseToggle (fuel + 1) s = .ok (.toggle target tk.value none, s2)) ∧
        (tk.value ≠ "class" → tk.value ≠ "show" → tk.value ≠ "hide" →
          parseToggle (fuel + 1) s =
            .error ⟨"Unknown toggle mode '" ++ tk.value ++ "'", tk.line, tk.column⟩)) ∧
    parseSource 64 "toggle \"#panel\" show" =
      .ok [.toggle (.literal (.text "#panel")) "show" none] ∧
    parseSource 64 "toggle \"#panel\" class \"active\"" =
      .ok [.toggle (.literal (.text "#panel")) "class" (some (.literal (.text "active")))] := by
  refine ⟨?_, rfl, rfl⟩
  intro fuel s s0 target s1 tk s2 h0 h1 h2
  refine ⟨?_, ?_, ?_⟩
  · intro hcls
    simp only [parseToggle, h0, h1, h2, hcls, bind, Bind.bind, Except.bind]
    rcases hp : parseExpression fuel s2 with e | ⟨arg, s3⟩ <;>
      simp [hp, Except.map, pure, Pure.pure, Except.pure]
  · intro hsh
    rcases hsh with h | h <;>
      simp [parseToggle, h0, h1, h2, h, bind, Bind.bind, Except.bind, pure, Pure.pure,
        Except.pure]
  · intro n1 n2 n3
    simp only [parseToggle, h0, h1, h2, bind, Bind.bind, Except.bind]
    rw [if_neg n1, if_neg (by simp [n2, n3])]
    rfl

/-- C2 witness: the toggle contract applied to the concrete token sequences of
`toggle "#panel" flip` (unknown mode, error at the mode token's line 1,
column 14) and `toggle "#panel" show`. -/
theorem toggle_grammar_witness :
    parseToggle 63
        ⟨[⟨.identifier, "toggle", 1, 1⟩, ⟨.string, "\"#panel\"", 1, 7⟩,
          ⟨.identifier, "flip", 1, 14⟩, ⟨.eof, "", 1, 18⟩], 0⟩ =
      .error ⟨"Unknown toggle mode 'flip'", 1, 14⟩ ∧
    parseToggle 63
        ⟨[⟨.identifier, "toggle", 1, 1⟩, ⟨.string, "\"#panel\"", 1, 7⟩,
          ⟨.identifier, "show", 1, 14⟩, ⟨.eof, "", 1, 18⟩], 0⟩ =
      .ok (.toggle (.literal (.text "#panel")) "show" none,
        ⟨[⟨.identifier, "toggle", 1, 1⟩, ⟨.string, "\"#panel\"", 1, 7⟩,
          ⟨.identifier, "show", 1, 14⟩, ⟨.eof, "", 1, 18⟩], 3⟩) :=
  ⟨(toggle_grammar.1 62
      ⟨[⟨.identifier, "toggle", 1, 1⟩, ⟨.string, "\"#panel\"", 1, 7⟩,
        ⟨.identifier, "flip", 1, 14⟩, ⟨.eof, "", 1, 18⟩], 0⟩
      ⟨[⟨.identifier, "toggle", 1, 1⟩, ⟨.string, "\"#panel\"", 1, 7⟩,
        ⟨.identifier, "flip", 1, 14⟩, ⟨.eof, "", 1, 18⟩], 1⟩
      (.literal (.text "#panel"))
      ⟨[⟨.identifier, "toggle", 1, 1⟩, ⟨.string, "\"#panel\"", 1, 7⟩,
        ⟨.identifier, "flip", 1, 14⟩, ⟨.eof, "", 1, 18⟩], 2⟩
      ⟨.identifier, "flip", 1, 14⟩
      ⟨[⟨.identifier, "toggle", 1, 1⟩, ⟨.string, "\"#panel\"", 1, 7⟩,
        ⟨.identifier, "flip", 1, 14⟩, ⟨.eof, "", 1, 18⟩], 3⟩
      rfl rfl rfl).2.2 (by decide) (by decide) (by decide),
    (toggle_grammar.1 62
      ⟨[⟨.identifier, "toggle", 1, 1⟩, ⟨.string, "\"#panel\"", 1, 7⟩,
        ⟨.identifier, "show", 1, 14⟩, ⟨.eof, "", 1, 18⟩], 0⟩
      ⟨[⟨.identifier, "toggle", 1, 1⟩, ⟨.string, "\"#panel\"", 1, 7⟩,
        ⟨.identifier, "show", 1, 14⟩, ⟨.eof, "", 1, 18⟩], 1⟩
      (.literal (.text "#panel"))
      ⟨[⟨.identifier, "toggle", 1, 1⟩, ⟨.string, "\"#panel\"", 1, 7⟩,
        ⟨.identifier, "show", 1, 14⟩, ⟨.eof, "", 1, 18⟩], 2⟩
      ⟨.identifier, "show", 1, 14⟩
      ⟨[⟨.identifier, "toggle", 1, 1⟩, ⟨.string, "\"#panel\"", 1, 7⟩,
        ⟨.identifier, "show", 1, 14⟩, ⟨.eof, "", 1, 18⟩], 3⟩
      rfl rfl rfl).2.1 (Or.inl rfl)⟩

/-- C3: operator lowering — a binary node with operator `+`, `-`, `==` or `!=`
is never emitted as a native operator: its generated text is exactly the
runtime call `sprout.ops.add` / `subtract` / `equals` / `notEquals` applied to
the generated operands (independently of the parent precedence context), a
unary `-` lowers to a `sprout.ops.negate` call, and a unary `!` lowers to
native negation `!(...)`. -/
theorem operator_lowering :
    (∀ (left right : Expression) (parentPrecedence indentLevel : Nat),
      generateExpression (.binary "+" left right) parentPrecedence indentLevel =
        "sprout.ops.add(" ++ generateExpression left 0 indentLevel ++ ", " ++
          generateExpression right 0 indentLevel ++ ")") ∧
    (∀ (left right : Expression) (parentPrecedence indentLevel : Nat),
      generateExpression (.binary "-" left right) parentPrecedence indentLevel =
        "sprout.ops.subtract(" ++ generateExpression left 0 indentLevel ++ ", " ++
          generateExpression right 0 indentLevel ++ ")") ∧
    (∀ (left right : Expression) (parentPrecedence indentLevel : Nat),
      generateExpression (.binary "==" left right) parentPrecedence indentLevel =
        "sprout.ops.equals(" ++ generateExpression left 0 indentLevel ++ ", " ++
          generateExpression right 0 indentLevel ++ ")") ∧
    (∀ (left right : Expression) (parentPrecedence indentLevel : Nat),
      generateExpression (.binary "!=" left right) parentPrecedence indentLevel =
        "sprout.ops.notEquals(" ++ generateExpression left 0 indentLevel ++ ", " ++
          generateExpression right 0 indentLevel ++ ")") ∧
    (∀ (argument : Expression) (parentPrecedence indentLevel : Nat),
      generateExpression (.unary "-" argument) parentPrecedence indentLevel =
        "sprout.ops.negate(" ++ generateExpression argument 0 indentLevel ++ ")") ∧
    (∀ (argument : Expression) (parentPrecedence indentLevel : Nat),
      generateExpression (.unary "!" argument) parentPrecedence indentLevel =
        "!(" ++ generateExpression argument 0 indentLevel ++ ")") ∧
    generateExpression (.binary "+" (.identifier "x") (.identifier "y")) 0 0 =
      "sprout.ops.add(x, y)" :=
  ⟨fun _ _ _ _ => rfl, fun _ _ _ _ => rfl, fun _ _ _ _ => rfl, fun _ _ _ _ => rfl,
    fun _ _ _ => rfl, fun _ _ _ => rfl, rfl⟩

/-- C4: precedence-based minimal parenthesization for natively emitted
operators.  A binary node with operator `* / % > >= < <=` renders its operands
at context precedences `prec` and `prec + 1` and wraps itself in parentheses
exactly when its own precedence is lower than the parent context's; a logical
node does the same with precedences 1 (`||`) and 2 (`&&`).  Consequently, for
the tree `(a OP1 b) OP2 c` with OP1 binding tighter than OP2 the generated
text contains no parentheses around the `a OP1 b` render, and for the reverse
precedence ordering the looser sub-expression is parenthesized.  Concrete
instances: `x * y > z` and `(x > y) * z`. -/
theorem native_operator_parenthesization :
    (∀ (operator : String),
      (operator = "*" ∨ operator = "/" ∨ operator = "%" ∨ operator = ">" ∨
        operator = ">=" ∨ operator = "<" ∨ operator = "<=") →
      ∀ (left right : Expression) (parentPrecedence indentLevel : Nat),
        generateExpression (.binary operator left right) parentPrecedence indentLevel =
          if precedenceForOperator operator < parentPrecedence then
            "(" ++ (generateExpression left (precedenceForOperator operator) indentLevel ++
              " " ++ operator ++ " " ++
              generateExpression right (precedenceForOperator operator + 1) indentLevel) ++ ")"
          else
            generateExpression left (precedenceForOperator operator) indentLevel ++ " " ++
              operator ++ " " ++
              generateExpression right (precedenceForOperator operator + 1) indentLevel) ∧
    (∀ (operator : String) (left right : Expression) (parentPrecedence indentLevel : Nat),
      generateExpression (.logical operator left right) parentPrecedence indentLevel =
        (let precedence := if operator = "||" then 1 else 2
         if precedence < parentPrecedence then
           "(" ++ (generateExpression left precedence indentLevel ++ " " ++ operator ++ " " ++
             generateExpression right (precedence + 1) indentLevel) ++ ")"
         else
           generateExpression left precedence indentLevel ++ " " ++ operator ++ " " ++
             generateExpression right (precedence + 1) indentLevel)) ∧
    (∀ (op1 op2 : String),
      (op1 = "*" ∨ op1 = "/" ∨ op1 = "%" ∨ op1 = ">" ∨ op1 = ">=" ∨ op1 = "<" ∨ op1 = "<=") →
      (op2 = "*" ∨ op2 = "/" ∨ op2 = "%" ∨ op2 = ">" ∨ op2 = ">=" ∨ op2 = "<" ∨ op2 = "<=") →
      precedenceForOperator op2 < precedenceForOperator op1 →
      ∀ (l r c : Expression) (indentLevel : Nat),
        generateExpression (.binary op2 (.binary op1 l r) c) 0 indentLevel =
          (generateExpression l (precedenceForOperator op1) indentLevel ++ " " ++ op1 ++ " " ++
            generateExpression r (precedenceForOperator op1 + 1) indentLevel) ++ " " ++
            op2 ++ " " ++
            generateExpression c (precedenceForOperator op2 + 1) indentLevel) ∧
    (∀ (op1 op2 : String),
      (op1 = "*" ∨ op1 = "/" ∨ op1 = "%" ∨ op1 = ">" ∨ op1 = ">=" ∨ op1 = "<" ∨ op1 = "<=") →
      (op2 = "*" ∨ op2 = "/" ∨ op2 = "%" ∨ op2 = ">" ∨ op2 = ">=" ∨ op2 = "<" ∨ op2 = "<=") →
      precedenceForOperator op1 < precedenceForOperator op2 →
      ∀ (l r c : Expression) (indentLevel : Nat),
        generateExpression (.binary op2 (.binary op1 l r) c) 0 indentLevel =
          ("(" ++ (generateExpression l (precedenceForOperator op1) indentLevel ++ " " ++
            op1 ++ " " ++
            generateExpression r (precedenceForOperator op1 + 1) indentLevel) ++ ")") ++ " " ++
            op2 ++ " " ++
            generateExpression c (precedenceForOperator op2 + 1) indentLevel) ∧
    generateExpression
        (.binary ">" (.binary "*" (.identifier "x") (.identifier "y")) (.identifier "z")) 0 0 =
      "x * y > z" ∧
    generateExpression
        (.binary "*" (.binary ">" (.identifier "x") (.identifier "y")) (.identifier "z")) 0 0 =
      "(x > y) * z" := by
  have key : ∀ (operator : String),
      (operator = "*" ∨ operator = "/" ∨ operator = "%" ∨ operator = ">" ∨
        operator = ">=" ∨ operator = "<" ∨ operator = "<=") →
      ∀ (left right : Expression) (parentPrecedence indentLevel : Nat),
        generateExpression (.binary operator left right) parentPrecedence indentLevel =
          if precedenceForOperator operator < parentPrecedence then
            "(" ++ (generateExpression left (precedenceForOperator operator) indentLevel ++
              " " ++ operator ++ " " ++
              generateExpression right (precedenceForOperator operator + 1) indentLevel) ++ ")"
          else
            generateExpression left (precedenceForOperator operator) indentLevel ++ " " ++
              operator ++ " " ++
              generateExpression right (precedenceForOperator operator + 1) indentLevel := by
    intro operator hop left right parentPrecedence indentLevel
    rcases hop with rfl | rfl | rfl | rfl | rfl | rfl | rfl <;> rfl
  refine ⟨key, fun _ _ _ _ _ => rfl, ?_, ?_, rfl, rfl⟩
  · intro op1 op2 h1 h2 hgt l r c indentLevel
    rw [key op2 h2 (.binary op1 l r) c 0 indentLevel, if_neg (Nat.not_lt_zero _),
      key op1 h1 l r (precedenceForOperator op2) indentLevel, if_neg (by omega)]
  · intro op1 op2 h1 h2 hlt l r c indentLevel
    rw [key op2 h2 (.binary op1 l r) c 0 indentLevel, if_neg (Nat.not_lt_zero _),
      key op1 h1 l r (precedenceForOperator op2) indentLevel, if_pos hlt]

/-- C4 witness: the no-parenthesis and parenthesis instances obtained by
applying the theorem at `op1 = "*", op2 = ">"` and `op1 = ">", op2 = "*"`. -/
theorem native_operator_parenthesization_witness :
    generateExpression
        (.binary ">" (.binary "*" (.identifier "a") (.identifier "b")) (.identifier "c")) 0 3 =
      "a * b > c" ∧
    generateExpression
        (.binary "*" (.binary ">" (.identifier "a") (.identifier "b")) (.identifier "c")) 0 3 =
      "(a > b) * c" :=
  ⟨(native_operator_parenthesization.2.2.1 "*" ">" (Or.inl rfl)
      (Or.inr (Or.inr (Or.inr (Or.inl rfl)))) (by decide)
      (.identifier "a") (.identifier "b") (.identifier "c") 3).trans rfl,
    (native_operator_parenthesization.2.2.2.1 ">" "*"
      (Or.inr (Or.inr (Or.inr (Or.inl rfl)))) (Or.inl rfl) (by decide)
      (.identifier "a") (.identifier "b") (.identifier "c") 3).trans rfl⟩


/-- C5: `send` lowering.  With zero continuation clauses the statement is one
emitted line `sprout.send(url, METHOD, payload);` (so the terminator `;` and
line break come from `emitLine`), where the method is uppercased and
JSON-quoted; with `n ≥ 1` clauses the call is emitted without a terminator,
each clause appends `.then((params) => { ...body... })` in order (the source
additionally pushes an empty fragment after the last clause), and the single
`;` is emitted once after the whole chain.  Two concrete renders demonstrate
the one-terminator shape. -/
theorem send_lowering :
    (∀ (url : Expression) (method : String) (payload : Expression) (s : GenState),
      generateStatement (.send url method payload []) s =
        emitLine ("sprout.send(" ++ generateExpression url 0 s.indentLevel ++ ", " ++
          jsonStringify (asciiUpper method) ++ ", " ++
          generateExpression payload 0 s.indentLevel ++ ");") s) ∧
    (∀ (url : Expression) (method : String) (payload : Expression) (clause : ThenClause)
        (rest : List ThenClause) (s : GenState),
      generateStatement (.send url method payload (clause :: rest)) s =
        { emitRaw ";\n" (generateSendChain (clause :: rest) (s.indentLevel + 1)
            (emitRaw (indentString s.indentLevel ++ "sprout.send(" ++
              generateExpression url 0 s.indentLevel ++ ", " ++
              jsonStringify (asciiUpper method) ++ ", " ++
              generateExpression payload 0 s.indentLevel ++ ")") s)) with
          indentLevel := s.indentLevel }) ∧
    (∀ (params : List String) (body : List Statement) (rest : List ThenClause)
        (chainIndent : Nat) (s : GenState),
      generateSendChain (ThenClause.mk params body :: rest) chainIndent s =
        (let s1 := emitRaw ("\n" ++ indentString chainIndent ++ ".then((" ++
          String.intercalate ", " params ++ ") => \x7b\n" ++
          String.join ((generateBlock body ⟨[], chainIndent + 1⟩).output) ++
          indentString chainIndent ++ "\x7d)") s
         generateSendChain rest chainIndent (if rest.isEmpty then emitRaw "" s1 else s1))) ∧
    (∀ (chainIndent : Nat) (s : GenState), generateSendChain [] chainIndent s = s) ∧
    generate [.send (.literal (.text "/api")) "post" (.identifier "x") []] =
      "sprout.send(\"/api\", \"POST\", x);\n" ∧
    generate [.send (.literal (.text "/api")) "post" (.identifier "x")
        [ThenClause.mk ["r"] [.exprStmt (.identifier "r")],
         ThenClause.mk ["q"] [.exprStmt (.identifier "q")]]] =
      "sprout.send(\"/api\", \"POST\", x)\n  .then((r) => \x7b\n    r;\n  \x7d)\n  .then((q) => \x7b\n    q;\n  \x7d);\n" :=
  ⟨fun _ _ _ _ => rfl, fun _ _ _ _ _ _ => rfl, fun _ _ _ _ _ => rfl, fun _ _ => rfl, rfl, rfl⟩

/-- C10: the generator's capture mechanism is frame-preserving — for every
indent level, render action and starting state, `capture` leaves the output
buffer and `indentLevel` exactly as they were, its return value is exactly the
text the action emits into a fresh buffer at that indent, and `emitCaptured`
only appends that text to the parent buffer (so text already emitted is never
modified).  The `listen` generator factors through `emitCaptured` exactly as
the source writes it, and a concrete instance is evaluated. -/
theorem capture_frame_preservation :
    (∀ (indent : Nat) (fn : GenState → GenState) (s : GenState),
      (capture indent fn s).2 = s ∧
      (capture indent fn s).1 = String.join ((fn ⟨[], indent⟩).output) ∧
      emitCaptured indent fn s = { s with output := s.output ++ [(capture indent fn s).1] }) ∧
    (∀ (selector : Expression) (event : String) (body : List Statement) (s : GenState),
      generateStatement (.listen selector event body) s =
        (let s1 := emitLine ("sprout.listen(" ++ generateExpression selector 0 s.indentLevel ++
            ", " ++ jsonStringify event ++ ", (event) => \x7b") s
         emitLine "\x7d);" (emitCaptured (s1.indentLevel + 1) (generateBlock body) s1))) ∧
    capture 2 (emitLine "x") ⟨["a"], 5⟩ = ("    x\n", ⟨["a"], 5⟩) :=
  ⟨fun _ _ _ => ⟨rfl, rfl, rfl⟩, fun _ _ _ _ => rfl, rfl⟩

/-- C8: driver wrapping — whenever `compileSprout` succeeds, the produced code
is exactly the fixed prelude (the four `Sprout.run((sprout) => {` /
`const state` / `const std` / destructuring lines, each newline-terminated),
followed by the generated body indented one level by `indentLines`, followed
by the fixed epilogue `});` plus a newline; in particular the code begins with
the prelude and ends with the epilogue, and both texts are constants
independent of the input program. -/
theorem driver_wrapping :
    (∀ (fuel : Nat) (source : String) (r : CompileResult),
      compileSprout fuel source = .ok r →
      ∃ program, parseSource fuel source = .ok program ∧
        r.code = preludeText ++ indentLines (generate program) 1 ++ "\x7d);\n" ∧
        (∃ rest, r.code = preludeText ++ rest) ∧
        (∃ front, r.code = front ++ "\x7d);\n")) ∧
    preludeText =
      "Sprout.run((sprout) => \x7b\n  const state = sprout.state;\n  const std = sprout.std;\n  const \x7b time, random, list, json, url \x7d = std;\n" ∧
    compileSprout 64 "toggle \"#p\" show" =
      .ok ⟨"Sprout.run((sprout) => \x7b\n  const state = sprout.state;\n  const std = sprout.std;\n  const \x7b time, random, list, json, url \x7d = std;\n  sprout.toggle(\"#p\", \"show\");\n\x7d);\n"⟩ := by
  refine ⟨?_, rfl, rfl⟩
  intro fuel source r h
  simp only [compileSprout] at h
  rcases hp : parseSource fuel source with e | program <;> rw [hp] at h
  · simp at h
  · simp only [Except.ok.injEq] at h
    subst h
    refine ⟨program, rfl, rfl, ⟨indentLines (generate program) 1 ++ "\x7d);\n",
      (String.append_assoc _ _ _)⟩, ⟨preludeText ++ indentLines (generate program) 1, rfl⟩⟩

/-- C8 witness: the wrapping equation instantiated at a concrete compile. -/
theorem driver_wrapping_witness :
    ∃ program, parseSource 64 "toggle \"#p\" show" = .ok program ∧
      (CompileResult.mk "Sprout.run((sprout) => \x7b\n  const state = sprout.state;\n  const std = sprout.std;\n  const \x7b time, random, list, json, url \x7d = std;\n  sprout.toggle(\"#p\", \"show\");\n\x7d);\n").code =
        preludeText ++ indentLines (generate program) 1 ++ "\x7d);\n" ∧
      (∃ rest, (CompileResult.mk "Sprout.run((sprout) => \x7b\n  const state = sprout.state;\n  const std = sprout.std;\n  const \x7b time, random, list, json, url \x7d = std;\n  sprout.toggle(\"#p\", \"show\");\n\x7d);\n").code = preludeText ++ rest) ∧
      (∃ front, (CompileResult.mk "Sprout.run((sprout) => \x7b\n  const state = sprout.state;\n  const std = sprout.std;\n  const \x7b time, random, list, json, url \x7d = std;\n  sprout.toggle(\"#p\", \"show\");\n\x7d);\n").code = front ++ "\x7d);\n") :=
  driver_wrapping.1 64 "toggle \"#p\" show" _ rfl


end Sprout
